import Mathlib

/-!
# The report log line iterator of `space_info/info_draw.c`

A shallow embedding of the text-view callbacks of the info editor
(`report_textview_begin`, `report_textview_step`, `report_textview_line_get`,
`report_line_draw_data` and their two internal helpers) and the properties of
the backward, filter-aware, line-splitting traversal they implement.

Conventions of the embedding.

* The report list (`ListBase` of `Report`) is a `List Report`, first element
  first. A pointer to a list node is the node's position, so the cursor
  `tvc->iter` is an `Option Nat` and `NULL` is `none`.  Following `->prev`
  from position `i + 1` gives position `i`, from position `0` gives `NULL`.
* Dereferencing a cursor that is `NULL` (or points at no node of the list) is
  a fault; every callback that dereferences the cursor returns an `Option`,
  and `none` is the fault.
* C `int` values (`len`, the two offsets, `iter_tmp`) are `Int`, unbounded.
  Every value the callbacks compute lies between `-1` and the largest `len`,
  or is a count of reports, so for a list of fewer than `2^31` reports whose
  `len` is not `INT_MIN` no `int` operation of the source overflows.
* `report->message` is the list of its characters; `str[i]` at the index of
  the terminator and past it reads as NUL (never a newline).
* Declarations of headers that are not part of this file (`IS_REPORT_VISIBLE`,
  the `RPT_*` masks) are parameters.
-/

namespace InfoDraw

/-! ## Data model -/

/-- The masks tested on `report->type` and `report->flag`.  They are declared
in headers outside this file, so the embedding takes them as a parameter. -/
structure ReportDefs where
  RPT_ERROR_ALL : Nat
  RPT_WARNING_ALL : Nat
  RPT_INFO_ALL : Nat
  RPT_PROPERTY : Nat
  RPT_OPERATOR : Nat
  RPT_PYTHON : Nat
  RPT_SELECT : Nat
deriving DecidableEq, Repr

/-- The fields of `Report` that this file reads. -/
structure Report where
  type : Nat
  flag : Nat
  len : Int
  message : List Char
deriving DecidableEq, Repr

/-- The field of `SpaceInfo` that `report_line_draw_data` reads.  The type mask
and the search string only enter through `IS_REPORT_VISIBLE`, which is the
parameter `vis` of the callbacks below. -/
structure SpaceInfo where
  active_report_index : Int
deriving DecidableEq, Repr

/-- The fields of `TextViewContext` that the callbacks read or write.
`arg1` is the `SpaceInfo`, `arg2` the report list. -/
structure TextViewContext where
  arg1 : SpaceInfo
  arg2 : List Report
  sel_start : Int
  sel_end : Int
  iter : Option Nat
  iter_char_begin : Int
  iter_char_end : Int
  iter_tmp : Int
deriving DecidableEq, Repr

/-- The `TextLine` that `report_textview_line_get` fills: `line` is the
pointer `report->message + iter_char_begin`, seen as the characters from
there to the end of the message, and `len` the span length. -/
structure TextLine where
  line : List Char
  len : Int
deriving DecidableEq, Repr

/-- The characters a `TextLine` denotes: the first `len` characters at `line`. -/
def TextLine.text (l : TextLine) : List Char :=
  l.line.take l.len.toNat

/-- Theme colour slots named in this file. -/
inductive ThemeColorId where
  | TH_BACK
  | TH_ROW_ALTERNATE
  | TH_TEXT
  | TH_INFO_SELECTED
  | TH_INFO_SELECTED_TEXT
  | TH_INFO_ACTIVE
  | TH_INFO_ERROR
  | TH_INFO_ERROR_TEXT
  | TH_INFO_WARNING
  | TH_INFO_WARNING_TEXT
  | TH_INFO_INFO
  | TH_INFO_INFO_TEXT
  | TH_INFO_PROPERTY
  | TH_INFO_PROPERTY_TEXT
  | TH_INFO_OPERATOR
  | TH_INFO_OPERATOR_TEXT
deriving DecidableEq, Repr

/-- Icon identifiers named in this file. -/
inductive Icon where
  | ICON_NONE
  | ICON_CANCEL
  | ICON_ERROR
  | ICON_INFO
  | ICON_OPTIONS
  | ICON_CHECKMARK
deriving DecidableEq, Repr

/-- The bits of `enum eTextViewContext_LineFlag` named in this file.  A flag
word is the list of the bits or-ed into it. -/
inductive LineFlag where
  | TVC_LINE_FG_SIMPLE
  | TVC_LINE_FG_COMPLEX
  | TVC_LINE_BG
  | TVC_LINE_ICON
  | TVC_LINE_ICON_FG
  | TVC_LINE_ICON_BG
deriving DecidableEq, Repr

/-- What a colour buffer holds after a theme lookup wrote it:
`theme id` after `UI_GetThemeColor4ubv(id, buf)`, and `blend a b f` after
`UI_GetThemeColorBlend4ubv(a, b, alpha, buf)` with `alpha` the fourth
component of `UI_GetThemeColor4fv(f, ..)`. -/
inductive Color where
  | theme (id : ThemeColorId)
  | blend (a b f : ThemeColorId)
deriving DecidableEq, Repr

/-- The outputs of `report_line_draw_data`: the returned flag word, whether the
python formatter was run on the line, and the out-parameters (`none` for a
buffer the call did not write). -/
structure LineDrawData where
  flags : List LineFlag
  py_formatted : Bool
  fg : Option Color
  bg : Option Color
  r_icon : Icon
  r_icon_fg : Option Color
  r_icon_bg : Option Color
deriving DecidableEq, Repr

/-! ## Pointers into the report list -/

/-- Reading through the cursor: `(const Report *)tvc->iter`. -/
def deref (reports : List Report) : Option Nat → Option Report
  | none => none
  | some i => reports[i]?

/-- The field `reports->list.last`. -/
def list_last (reports : List Report) : Option Nat :=
  match reports.length with
  | 0 => none
  | n + 1 => some n

/-- The field `((Link *)p)->prev`; the outer `none` is the fault of reading
through a pointer that is no node of the list. -/
def link_prev (reports : List Report) : Option Nat → Option (Option Nat)
  | none => none
  | some i =>
    if i < reports.length then
      match i with
      | 0 => some none
      | j + 1 => some (some j)
    else none

/-- Modelled from the spec: `BLI_findlink` (blenlib, not part of this file),
the node at position `number` of the list, `NULL` when there is none. -/
def BLI_findlink (reports : List Report) (number : Int) : Option Nat :=
  if 0 ≤ number ∧ number.toNat < reports.length then some number.toNat else none

/-- The character `str[i]` of a message: a character of the message, or NUL
at the index of the terminator and past it. -/
def str_at (message : List Char) (i : Nat) : Char :=
  message.getD i (Char.ofNat 0)

/-! ## The callbacks -/

/-- The loop of `report_textview_init__internal`.  The argument is
`i + 1` for the loop variable `i` (so `0` is the exit `i < 0`); the result is
the value stored in `iter_char_begin`. -/
def scanLoop (str : Nat → Char) : Nat → Nat
  | 0 => 0
  | i + 1 => if str i = '\n' then i + 1 else scanLoop str i

/-- `report_textview_init__internal`.  The loop starts at
`i = iter_char_end - 1`, which is `scanLoop` at `iter_char_end`, and is not
entered when `iter_char_end <= 0`. -/
def report_textview_init__internal (tvc : TextViewContext) : Option TextViewContext :=
  match deref tvc.arg2 tvc.iter with
  | none => none
  | some report =>
    some { tvc with
      iter_char_begin := (scanLoop (str_at report.message) tvc.iter_char_end.toNat : Nat) }

/-- The loop of `report_textview_skip__internal`, entered with a cursor at
position `i`: the cursor it ends with. -/
def skipLoop (vis : Report → Bool) (reports : List Report) : Nat → Option (Option Nat)
  | 0 =>
    match reports[0]? with
    | none => none
    | some r => if vis r then some (some 0) else some none
  | i + 1 =>
    match reports[i + 1]? with
    | none => none
    | some r => if vis r then some (some (i + 1)) else skipLoop vis reports i

/-- `report_textview_skip__internal`. -/
def report_textview_skip__internal (vis : Report → Bool) (tvc : TextViewContext) :
    Option (TextViewContext × Bool) :=
  match tvc.iter with
  | none => some (tvc, false)
  | some i =>
    match skipLoop vis tvc.arg2 i with
    | none => none
    | some it => some ({ tvc with iter := it }, it.isSome)

/-- `report_textview_begin`.  The two calls that clear the region
(`UI_ThemeClearColor`, `GPU_clear`) only draw and have no counterpart here. -/
def report_textview_begin (vis : Report → Bool) (tvc : TextViewContext) :
    Option (TextViewContext × Bool) :=
  let tvc := { tvc with sel_start := 0, sel_end := 0 }
  let tvc := { tvc with iter := list_last tvc.arg2 }
  let tvc := { tvc with iter_tmp := 0 }
  match tvc.iter with
  | none => some (tvc, false)
  | some _ =>
    match report_textview_skip__internal vis tvc with
    | none => none
    | some (tvc, false) => some (tvc, false)
    | some (tvc, true) =>
      match deref tvc.arg2 tvc.iter with
      | none => none
      | some report =>
        match report_textview_init__internal { tvc with iter_char_end := report.len } with
        | none => none
        | some tvc => some (tvc, true)

/-- `report_textview_step`. -/
def report_textview_step (vis : Report → Bool) (tvc : TextViewContext) :
    Option (TextViewContext × Bool) :=
  if tvc.iter_char_begin ≤ 0 then
    match link_prev tvc.arg2 tvc.iter with
    | none => none
    | some p =>
      let tvc := { tvc with iter := p }
      match tvc.iter with
      | none => some (tvc, false)
      | some _ =>
        match report_textview_skip__internal vis tvc with
        | none => none
        | some (tvc, false) => some (tvc, false)
        | some (tvc, true) =>
          let tvc := { tvc with iter_tmp := tvc.iter_tmp + 1 }
          match deref tvc.arg2 tvc.iter with
          | none => none
          | some report =>
            match report_textview_init__internal { tvc with iter_char_end := report.len } with
            | none => none
            | some tvc => some (tvc, true)
  else
    match report_textview_init__internal
        { tvc with iter_char_end := tvc.iter_char_begin - 1 } with
    | none => none
    | some tvc => some (tvc, true)

/-- `report_textview_line_get`: the `TextLine` it allocates and puts at the
head of `text_lines`. -/
def report_textview_line_get (tvc : TextViewContext) : Option TextLine :=
  match deref tvc.arg2 tvc.iter with
  | none => none
  | some report =>
    some { line := report.message.drop tvc.iter_char_begin.toNat,
           len := tvc.iter_char_end - tvc.iter_char_begin }

/-- `report_line_draw_data`.  The locals `icon_fg_id` and `icon_bg_id` are
declared without a value, so they are `Option`s here and reading one that was
never assigned is a fault. -/
def report_line_draw_data (K : ReportDefs) (tvc : TextViewContext) : Option LineDrawData :=
  match deref tvc.arg2 tvc.iter with
  | none => none
  | some report =>
    let active_report := BLI_findlink tvc.arg2 tvc.arg1.active_report_index
    let python : Bool := report.flag &&& K.RPT_PYTHON != 0
    let select : Bool := report.flag &&& K.RPT_SELECT != 0
    let data_flag : List LineFlag :=
      if python then [LineFlag.TVC_LINE_FG_COMPLEX] else [LineFlag.TVC_LINE_FG_SIMPLE]
    let fg : Option Color :=
      if python then none
      else some (Color.theme
        (if select then ThemeColorId.TH_INFO_SELECTED_TEXT else ThemeColorId.TH_TEXT))
    let bg : Color :=
      if select then
        Color.theme (if tvc.iter = active_report then ThemeColorId.TH_INFO_ACTIVE
                     else ThemeColorId.TH_INFO_SELECTED)
      else if Int.tmod tvc.iter_tmp 2 != 0 then Color.theme ThemeColorId.TH_BACK
      else Color.blend ThemeColorId.TH_BACK ThemeColorId.TH_ROW_ALTERNATE
             ThemeColorId.TH_ROW_ALTERNATE
    let chosen : Icon × Option ThemeColorId × Option ThemeColorId :=
      if tvc.iter_char_begin != 0 then (Icon.ICON_NONE, none, none)
      else if report.type &&& K.RPT_ERROR_ALL != 0 then
        (Icon.ICON_CANCEL, some ThemeColorId.TH_INFO_ERROR_TEXT, some ThemeColorId.TH_INFO_ERROR)
      else if report.type &&& K.RPT_WARNING_ALL != 0 then
        (Icon.ICON_ERROR, some ThemeColorId.TH_INFO_WARNING_TEXT,
          some ThemeColorId.TH_INFO_WARNING)
      else if report.type &&& K.RPT_INFO_ALL != 0 then
        (Icon.ICON_INFO, some ThemeColorId.TH_INFO_INFO_TEXT, some ThemeColorId.TH_INFO_INFO)
      else if report.type &&& K.RPT_PROPERTY != 0 then
        (Icon.ICON_OPTIONS, some ThemeColorId.TH_INFO_PROPERTY_TEXT,
          some ThemeColorId.TH_INFO_PROPERTY)
      else if report.type &&& K.RPT_OPERATOR != 0 then
        (Icon.ICON_CHECKMARK, some ThemeColorId.TH_INFO_OPERATOR_TEXT,
          some ThemeColorId.TH_INFO_OPERATOR)
      else (Icon.ICON_NONE, none, none)
    let r_icon := chosen.1
    let icon_fg_id := if select then some ThemeColorId.TH_INFO_SELECTED else chosen.2.1
    let icon_bg_id := if select then some ThemeColorId.TH_INFO_SELECTED_TEXT else chosen.2.2
    if r_icon != Icon.ICON_NONE then
      match icon_fg_id, icon_bg_id with
      | some f, some b =>
        some { flags := data_flag ++ [LineFlag.TVC_LINE_BG, LineFlag.TVC_LINE_ICON,
                 LineFlag.TVC_LINE_ICON_FG, LineFlag.TVC_LINE_ICON_BG],
               py_formatted := python, fg := fg, bg := some bg, r_icon := r_icon,
               r_icon_fg := some (Color.theme f), r_icon_bg := some (Color.theme b) }
      | _, _ => none
    else
      some { flags := data_flag ++ [LineFlag.TVC_LINE_BG],
             py_formatted := python, fg := fg, bg := some bg, r_icon := r_icon,
             r_icon_fg := none, r_icon_bg := none }

/-! ## The driver -/

/-- Modelled from the spec: the loop of the text-view driver (`textview_draw`,
not part of this file) after a `begin` that returned true: the current line is
exposed, then `step` is called, until `step` returns false.  The result lists
the contexts of the exposed lines in the order of emission; `none` is a fault
of `step`, or a loop that is not over after `fuel` lines. -/
def stepLoop (vis : Report → Bool) : Nat → TextViewContext → Option (List TextViewContext)
  | 0, _ => none
  | fuel + 1, tvc =>
    match report_textview_step vis tvc with
    | none => none
    | some (_, false) => some [tvc]
    | some (tvc', true) =>
      match stepLoop vis fuel tvc' with
      | none => none
      | some rest => some (tvc :: rest)

/-- An upper bound on the number of display lines of a report list:
a report has at most `len + 1` lines. -/
def lineBudget (reports : List Report) : Nat :=
  (reports.map (fun r => r.len.toNat + 1)).sum

/-- Modelled from the spec: one traversal by the driver, `begin`, then `step`
until it returns false.  A `begin` that returns false exposes no line. -/
def traversal (vis : Report → Bool) (tvc : TextViewContext) : Option (List TextViewContext) :=
  match report_textview_begin vis tvc with
  | none => none
  | some (_, false) => some []
  | some (tvc', true) => stepLoop vis (lineBudget tvc.arg2) tvc'

/-- The context that `info_textview_main__internal` builds (`tvc = {0}`, then
`arg1` and `arg2`). -/
def tvc_init (sinfo : SpaceInfo) (reports : List Report) : TextViewContext :=
  { arg1 := sinfo, arg2 := reports, sel_start := 0, sel_end := 0, iter := none,
    iter_char_begin := 0, iter_char_end := 0, iter_tmp := 0 }


/-! ## The trace in closed form -/

/-- The offset pairs `(iter_char_begin, iter_char_end)` of the lines of the
first `e` characters, last line first. -/
def spans (str : Nat → Char) : Nat → List (Nat × Nat)
  | 0 => [(0, 0)]
  | e + 1 =>
    if str e = '\n' then (e + 1, e + 1) :: spans str e
    else
      match spans str e with
      | [] => [(0, e + 1)]
      | (b, _) :: rest => (b, e + 1) :: rest

/-- The context of a line: cursor `i`, counter `t`, offsets `p`. -/
def lineCtx (a1 : SpaceInfo) (rs : List Report) (i : Nat) (t : Int) (p : Int × Int) :
    TextViewContext :=
  { arg1 := a1, arg2 := rs, sel_start := 0, sel_end := 0, iter := some i,
    iter_char_begin := p.1, iter_char_end := p.2, iter_tmp := t }

/-- The casts of an offset pair to `Int`. -/
def castSpan (p : Nat × Nat) : Int × Int := ((p.1 : Int), (p.2 : Int))

/-- The offset pairs of the lines of a report, in the order of emission. -/
def reportSpans (r : Report) : List (Int × Int) :=
  (((scanLoop (str_at r.message) r.len.toNat : Nat) : Int), r.len) ::
    (spans (str_at r.message) r.len.toNat).tail.map castSpan

/-- The lines of the visible reports at the positions below `n`, from the last
report down, the counter starting at `t`. -/
def expected (vis : Report → Bool) (a1 : SpaceInfo) (rs : List Report) :
    Nat → Int → List TextViewContext
  | 0, _ => []
  | n + 1, t =>
    match rs[n]? with
    | none => expected vis a1 rs n t
    | some r =>
      if vis r then (reportSpans r).map (lineCtx a1 rs n t) ++ expected vis a1 rs n (t + 1)
      else expected vis a1 rs n t

/-- The nearest visible report at a position below `n`. -/
def prevVisible (vis : Report → Bool) (rs : List Report) : Nat → Option Nat
  | 0 => none
  | n + 1 =>
    match rs[n]? with
    | none => prevVisible vis rs n
    | some r => if vis r then some n else prevVisible vis rs n

/-- The number of visible reports at the positions above `i` and below `n`. -/
def visibleBetween (vis : Report → Bool) (rs : List Report) (i n : Nat) : Nat :=
  ((rs.take n).drop (i + 1)).countP vis

/-- The characters of the span `p` of a message. -/
def spanText (msg : List Char) (p : Nat × Nat) : List Char :=
  (msg.drop p.1).take (p.2 - p.1)

/-! ## Reachable states and sample data -/

/-- The states of a traversal: the one a `begin` that returned true leaves, and
those that steps returning true lead to from there. -/
inductive Reached (vis : Report → Bool) (tvc0 : TextViewContext) : TextViewContext → Prop where
  | start (s : TextViewContext) :
      report_textview_begin vis tvc0 = some (s, true) → Reached vis tvc0 s
  | next (s s' : TextViewContext) :
      Reached vis tvc0 s → report_textview_step vis s = some (s', true) → Reached vis tvc0 s'

/-- What a display line exposes of the context: the cursor, the two offsets and
the counter. -/
def exposed (s : TextViewContext) : Option Nat × Int × Int × Int :=
  (s.iter, s.iter_char_begin, s.iter_char_end, s.iter_tmp)

/-- Sample values of the masks: the report types of Blender's
`DNA_windowmanager_types.h`, and two distinct bits for the two report flags. -/
def sampleDefs : ReportDefs :=
  { RPT_ERROR_ALL := 480, RPT_WARNING_ALL := 16, RPT_INFO_ALL := 2, RPT_PROPERTY := 8,
    RPT_OPERATOR := 4, RPT_PYTHON := 2, RPT_SELECT := 1 }

/-- A two-report list: an unselected info report with the message `a\nb` and
a selected error report with the message `c`. -/
def sampleReports : List Report :=
  [ { type := 2, flag := 0, len := 3, message := ['a', '\n', 'b'] },
    { type := 32, flag := 1, len := 1, message := ['c'] } ]

/-- A filter that shows every report. -/
def showAll : Report → Bool := fun _ => true

/-- A filter that hides the error reports of `sampleDefs`. -/
def hideErrors : Report → Bool := fun r => r.type &&& 480 == 0

/-- Whether position `i` of the list holds a visible report. -/
def visibleAt (vis : Report → Bool) (rs : List Report) (i : Nat) : Bool :=
  match rs[i]? with
  | some r => vis r
  | none => false

/-- The positions of the visible reports, in list order. -/
def visiblePositions (vis : Report → Bool) (rs : List Report) : List Nat :=
  (List.range rs.length).filter (visibleAt vis rs)

/-! ## The entry points -/

/-- `INT_MAX` for the 32-bit `int`. -/
def INT_MAX : Int := 2147483647

/-- `info_textview_main__internal`: it builds the context (`tvc_init`) with the
five callbacks of this file and hands it to the driver together with
`do_draw` and `mval`, which are not stored in the context.  Modelled from the
spec: the driver itself (`textview_draw`) is not part of this file; the value
here is what the callbacks expose when the driver runs `begin` and then `step`
until it returns false. -/
def info_textview_main__internal (vis : Report → Bool) (sinfo : SpaceInfo)
    (reports : List Report) (_do_draw : Bool) (_mval : Int × Int) :
    Option (List (Option Nat × Int × Int × Int)) :=
  (traversal vis (tvc_init sinfo reports)).map (List.map exposed)

/-- `info_text_pick`: the traversal it runs. -/
def info_text_pick (vis : Report → Bool) (sinfo : SpaceInfo) (reports : List Report)
    (mval_y : Int) : Option (List (Option Nat × Int × Int × Int)) :=
  info_textview_main__internal vis sinfo reports false (0, mval_y)

/-- `info_textview_height`: the traversal it runs. -/
def info_textview_height (vis : Report → Bool) (sinfo : SpaceInfo) (reports : List Report) :
    Option (List (Option Nat × Int × Int × Int)) :=
  info_textview_main__internal vis sinfo reports false (INT_MAX, INT_MAX)

/-- `info_textview_main`: the traversal it runs. -/
def info_textview_main (vis : Report → Bool) (sinfo : SpaceInfo) (reports : List Report) :
    Option (List (Option Nat × Int × Int × Int)) :=
  info_textview_main__internal vis sinfo reports true (INT_MAX, INT_MAX)

/-! ## The presentation rules in the words of the specification

The definitions of this section follow the specification, not the source; the
theorems compare `report_line_draw_data` with them. -/

/-- The report categories that have an icon, in the priority order of the
specification: error, warning, info, property, operator. -/
inductive Category where
  | error
  | warning
  | info
  | property
  | operator
deriving DecidableEq, Repr

/-- The mask that tests a category on `report->type`. -/
def Category.mask (K : ReportDefs) : Category → Nat
  | .error => K.RPT_ERROR_ALL
  | .warning => K.RPT_WARNING_ALL
  | .info => K.RPT_INFO_ALL
  | .property => K.RPT_PROPERTY
  | .operator => K.RPT_OPERATOR

/-- The icon of a category. -/
def Category.icon : Category → Icon
  | .error => Icon.ICON_CANCEL
  | .warning => Icon.ICON_ERROR
  | .info => Icon.ICON_INFO
  | .property => Icon.ICON_OPTIONS
  | .operator => Icon.ICON_CHECKMARK

/-- The icon foreground slot of a category. -/
def Category.iconFg : Category → ThemeColorId
  | .error => ThemeColorId.TH_INFO_ERROR_TEXT
  | .warning => ThemeColorId.TH_INFO_WARNING_TEXT
  | .info => ThemeColorId.TH_INFO_INFO_TEXT
  | .property => ThemeColorId.TH_INFO_PROPERTY_TEXT
  | .operator => ThemeColorId.TH_INFO_OPERATOR_TEXT

/-- The icon background slot of a category. -/
def Category.iconBg : Category → ThemeColorId
  | .error => ThemeColorId.TH_INFO_ERROR
  | .warning => ThemeColorId.TH_INFO_WARNING
  | .info => ThemeColorId.TH_INFO_INFO
  | .property => ThemeColorId.TH_INFO_PROPERTY
  | .operator => ThemeColorId.TH_INFO_OPERATOR

/-- The fixed priority order of the categories. -/
def categoryPriority : List Category :=
  [Category.error, Category.warning, Category.info, Category.property, Category.operator]

/-- The first category, in priority order, that a report type has. -/
def specFirstCategory (K : ReportDefs) (type : Nat) : Option Category :=
  categoryPriority.find? (fun c => type &&& c.mask K != 0)

/-- The icon rule of the specification on a line that may show an icon: the
icon of the first category of the type, none when the type has no category. -/
def specIcon (K : ReportDefs) (type : Nat) : Icon :=
  match specFirstCategory K type with
  | some c => c.icon
  | none => Icon.ICON_NONE

/-- The background rule of the specification: the active or the selected
background for a selected report, and for the others the tone of the parity of
the visited counter. -/
def specBackground (selected active : Bool) (iter_tmp : Int) : Color :=
  if selected then
    if active then Color.theme ThemeColorId.TH_INFO_ACTIVE
    else Color.theme ThemeColorId.TH_INFO_SELECTED
  else if iter_tmp % 2 = 1 then Color.theme ThemeColorId.TH_BACK
  else Color.blend ThemeColorId.TH_BACK ThemeColorId.TH_ROW_ALTERNATE
    ThemeColorId.TH_ROW_ALTERNATE

/-- Whether the report flag has `RPT_SELECT`. -/
def isSelected (K : ReportDefs) (r : Report) : Bool := r.flag &&& K.RPT_SELECT != 0

/-- Whether the report flag has `RPT_PYTHON`. -/
def isPython (K : ReportDefs) (r : Report) : Bool := r.flag &&& K.RPT_PYTHON != 0

/-- Whether the cursor is the report found at `active_report_index`. -/
def isActive (s : TextViewContext) : Bool :=
  decide (s.iter = BLI_findlink s.arg2 s.arg1.active_report_index)

/-- The if-chain of `report_line_draw_data` that picks the icon: the icon
written to `r_icon` and the locals `icon_fg_id` and `icon_bg_id` as the chain
leaves them, before the override for a selected report (`none` for a local the
chain did not assign). -/
def icon_select (K : ReportDefs) (iter_char_begin : Int) (type : Nat) :
    Icon × Option ThemeColorId × Option ThemeColorId :=
  if iter_char_begin != 0 then (Icon.ICON_NONE, none, none)
  else if type &&& K.RPT_ERROR_ALL != 0 then
    (Icon.ICON_CANCEL, some ThemeColorId.TH_INFO_ERROR_TEXT, some ThemeColorId.TH_INFO_ERROR)
  else if type &&& K.RPT_WARNING_ALL != 0 then
    (Icon.ICON_ERROR, some ThemeColorId.TH_INFO_WARNING_TEXT,
      some ThemeColorId.TH_INFO_WARNING)
  else if type &&& K.RPT_INFO_ALL != 0 then
    (Icon.ICON_INFO, some ThemeColorId.TH_INFO_INFO_TEXT, some ThemeColorId.TH_INFO_INFO)
  else if type &&& K.RPT_PROPERTY != 0 then
    (Icon.ICON_OPTIONS, some ThemeColorId.TH_INFO_PROPERTY_TEXT,
      some ThemeColorId.TH_INFO_PROPERTY)
  else if type &&& K.RPT_OPERATOR != 0 then
    (Icon.ICON_CHECKMARK, some ThemeColorId.TH_INFO_OPERATOR_TEXT,
      some ThemeColorId.TH_INFO_OPERATOR)
  else (Icon.ICON_NONE, none, none)

/-- A three-report list: two unselected info reports with a selected info
report between them. -/
def stripeReports : List Report :=
  [ { type := 2, flag := 0, len := 1, message := ['x'] },
    { type := 2, flag := 1, len := 1, message := ['y'] },
    { type := 2, flag := 0, len := 1, message := ['z'] } ]

/-- A filter that hides the reports whose flag word is not 0. -/
def hideFlagged : Report → Bool := fun r => r.flag == 0

/-! ## Lemmas on the scan and the trace -/

theorem scanLoop_le (str : Nat → Char) (e : Nat) : scanLoop str e ≤ e := by
  induction e with
  | zero => simp [scanLoop]
  | succ e ih =>
    simp only [scanLoop]
    split
    · exact le_rfl
    · exact Nat.le_succ_of_le ih

theorem spans_ne_nil (str : Nat → Char) (e : Nat) : spans str e ≠ [] := by
  cases e with
  | zero => simp [spans]
  | succ e =>
    simp only [spans]
    split
    · simp
    · split <;> simp

theorem spans_unfold (str : Nat → Char) (e : Nat) :
    spans str e = (scanLoop str e, e) ::
      (if scanLoop str e = 0 then [] else spans str (scanLoop str e - 1)) := by
  induction e with
  | zero => simp [spans, scanLoop]
  | succ e ih =>
    simp only [spans, scanLoop]
    by_cases h : str e = '\n'
    · simp [h]
    · simp only [h, if_false]
      rw [ih]

theorem spans_tail (str : Nat → Char) (e : Nat) :
    (spans str e).tail =
      (if scanLoop str e = 0 then [] else spans str (scanLoop str e - 1)) := by
  rw [spans_unfold str e]; rfl

theorem scanLoop_prev_newline (str : Nat → Char) (e : Nat) (h : scanLoop str e ≠ 0) :
    str (scanLoop str e - 1) = '\n' := by
  induction e with
  | zero => simp [scanLoop] at h
  | succ e ih =>
    simp only [scanLoop] at h ⊢
    by_cases hc : str e = '\n'
    · simp [hc]
    · simp only [hc, if_false] at h ⊢
      exact ih h

theorem scanLoop_no_newline (str : Nat → Char) (e j : Nat)
    (h1 : scanLoop str e ≤ j) (h2 : j < e) : str j ≠ '\n' := by
  induction e with
  | zero => omega
  | succ e ih =>
    simp only [scanLoop] at h1
    by_cases hc : str e = '\n'
    · simp only [hc, if_true] at h1; omega
    · simp only [hc, if_false] at h1
      by_cases hj : j = e
      · subst hj; exact hc
      · exact ih h1 (by omega)

theorem prevVisible_some (vis : Report → Bool) (rs : List Report) (n j : Nat)
    (h : prevVisible vis rs n = some j) :
    j < n ∧ ∃ r, rs[j]? = some r ∧ vis r = true := by
  induction n with
  | zero => simp [prevVisible] at h
  | succ n ih =>
    simp only [prevVisible] at h
    cases hr : rs[n]? with
    | none =>
      simp only [hr] at h
      obtain ⟨h1, h2⟩ := ih h
      exact ⟨by omega, h2⟩
    | some r =>
      simp only [hr] at h
      by_cases hv : vis r = true
      · simp only [hv, if_true, Option.some.injEq] at h
        subst h
        exact ⟨by omega, r, hr, hv⟩
      · simp only [hv, if_false] at h
        obtain ⟨h1, h2⟩ := ih h
        exact ⟨by omega, h2⟩

theorem skipLoop_eq (vis : Report → Bool) (rs : List Report) (m : Nat) (h : m < rs.length) :
    skipLoop vis rs m = some (prevVisible vis rs (m + 1)) := by
  induction m with
  | zero =>
    simp only [skipLoop, prevVisible]
    rw [List.getElem?_eq_getElem h]
    simp only []
    split <;> rfl
  | succ m ih =>
    simp only [skipLoop]
    rw [prevVisible]
    rw [List.getElem?_eq_getElem h]
    simp only []
    split
    · rfl
    · exact ih (by omega)

theorem expected_unfold (vis : Report → Bool) (a1 : SpaceInfo) (rs : List Report)
    (n : Nat) (t : Int) :
    expected vis a1 rs n t =
      match prevVisible vis rs n with
      | none => []
      | some j =>
        match rs[j]? with
        | none => []
        | some r =>
          (reportSpans r).map (lineCtx a1 rs j t) ++ expected vis a1 rs j (t + 1) := by
  induction n with
  | zero => simp [expected, prevVisible]
  | succ n ih =>
    simp only [expected, prevVisible]
    cases hr : rs[n]? with
    | none => simpa using ih
    | some r =>
      by_cases hv : vis r = true
      · simp [hv, hr]
      · simpa [hv] using ih

theorem step_inside (vis : Report → Bool) (s : TextViewContext) (r : Report)
    (h : 0 < s.iter_char_begin) (hr : deref s.arg2 s.iter = some r) :
    report_textview_step vis s =
      some ({ s with
        iter_char_end := s.iter_char_begin - 1,
        iter_char_begin :=
          (scanLoop (str_at r.message) (s.iter_char_begin - 1).toNat : Nat) }, true) := by
  have h' : ¬ s.iter_char_begin ≤ 0 := by omega
  simp [report_textview_step, h', report_textview_init__internal, hr]

theorem step_leave (vis : Report → Bool) (s : TextViewContext) (i : Nat)
    (h : s.iter_char_begin ≤ 0) (hi : s.iter = some i) (hlt : i < s.arg2.length) :
    report_textview_step vis s =
      match prevVisible vis s.arg2 i with
      | none => some ({ s with iter := none }, false)
      | some j =>
        match s.arg2[j]? with
        | none => none
        | some r =>
          some ({ s with
            iter := some j, iter_tmp := s.iter_tmp + 1, iter_char_end := r.len,
            iter_char_begin := (scanLoop (str_at r.message) r.len.toNat : Nat) }, true) := by
  cases i with
  | zero =>
    simp [report_textview_step, h, link_prev, hi, hlt, prevVisible]
  | succ m =>
    have hm : m < s.arg2.length := by omega
    simp only [report_textview_step, h, if_true, link_prev, hi, hlt,
      report_textview_skip__internal, skipLoop_eq vis s.arg2 m hm]
    cases hp : prevVisible vis s.arg2 (m + 1) with
    | none => simp
    | some j =>
      simp only [Option.isSome_some, deref, report_textview_init__internal]
      cases hj : s.arg2[j]? with
      | none => simp
      | some r => simp

theorem reportSpans_eq (r : Report) :
    reportSpans r = (((scanLoop (str_at r.message) r.len.toNat : Nat) : Int), r.len) ::
      (spans (str_at r.message) r.len.toNat).tail.map castSpan := rfl

theorem stepLoop_report (vis : Report → Bool) (a1 : SpaceInfo) (rs : List Report) :
    ∀ (i : Nat) (r : Report) (t : Int) (e : Nat) (e' : Int) (fuel : Nat),
      rs[i]? = some r →
      1 + (spans (str_at r.message) e).tail.length + (expected vis a1 rs i (t + 1)).length
        ≤ fuel →
      stepLoop vis fuel (lineCtx a1 rs i t ((scanLoop (str_at r.message) e : Nat), e')) =
        some (lineCtx a1 rs i t ((scanLoop (str_at r.message) e : Nat), e') ::
          (((spans (str_at r.message) e).tail.map castSpan).map (lineCtx a1 rs i t) ++
            expected vis a1 rs i (t + 1))) := by
  intro i
  induction i using Nat.strong_induction_on with
  | _ i ihi =>
    intro r t e
    induction e using Nat.strong_induction_on with
    | _ e ihe =>
      intro e' fuel hr hfuel
      have hlt : i < rs.length := by
        by_contra hc
        rw [List.getElem?_eq_none (by omega)] at hr
        exact Option.noConfusion hr
      cases fuel with
      | zero => omega
      | succ f =>
        simp only [stepLoop]
        by_cases hb : scanLoop (str_at r.message) e = 0
        · -- the step leaves the report
          have hstep := step_leave vis
            (lineCtx a1 rs i t ((scanLoop (str_at r.message) e : Nat), e')) i
            (by simp [lineCtx, hb]) rfl hlt
          rw [hstep]
          rw [spans_tail, if_pos hb] at hfuel ⊢
          rw [expected_unfold] at hfuel ⊢
          simp only [lineCtx] at hfuel ⊢
          cases hp : prevVisible vis rs i with
          | none => simp
          | some j =>
            obtain ⟨hji, r', hr', _⟩ := prevVisible_some vis rs i j hp
            simp only [hp, hr'] at hfuel ⊢
            have ih := ihi j hji r' (t + 1) r'.len.toNat r'.len f hr'
              (by
                simp only [reportSpans_eq, List.map_cons, List.length_append,
                  List.length_cons, List.length_map, List.tail_nil, List.length_nil,
                  List.map_nil] at hfuel ⊢
                omega)
            simp only [lineCtx] at ih
            rw [ih]
            simp [reportSpans_eq, lineCtx]
        · -- the step stays inside the report
          have hpos : 0 < scanLoop (str_at r.message) e := Nat.pos_of_ne_zero hb
          have hstep := step_inside vis
            (lineCtx a1 rs i t ((scanLoop (str_at r.message) e : Nat), e')) r
            (by simp only [lineCtx]; omega) (by simpa [lineCtx, deref] using hr)
          rw [hstep]
          have hcast : ((scanLoop (str_at r.message) e : Nat) : Int) - 1 =
              ((scanLoop (str_at r.message) e - 1 : Nat) : Int) := by omega
          have htn : (((scanLoop (str_at r.message) e : Nat) : Int) - 1).toNat =
              scanLoop (str_at r.message) e - 1 := by omega
          have hlt2 : scanLoop (str_at r.message) e - 1 < e := by
            have := scanLoop_le (str_at r.message) e
            omega
          have htail := spans_tail (str_at r.message) e
          rw [if_neg hb] at htail
          have hun := spans_unfold (str_at r.message) (scanLoop (str_at r.message) e - 1)
          have ih := ihe (scanLoop (str_at r.message) e - 1) hlt2
            (((scanLoop (str_at r.message) e : Nat) : Int) - 1) f hr
            (by
              rw [htail] at hfuel
              rw [hun] at hfuel
              rw [spans_tail]
              simp only [List.length_cons] at hfuel
              omega)
          simp only [lineCtx, htn] at ih ⊢
          rw [ih]
          rw [htail]
          conv_rhs => rw [hun]
          simp [castSpan, lineCtx, hcast, spans_tail]

theorem spans_length_le (str : Nat → Char) (e : Nat) : (spans str e).length ≤ e + 1 := by
  induction e with
  | zero => simp [spans]
  | succ e ih =>
    simp only [spans]
    split
    · simp only [List.length_cons]; omega
    · split
      · simp
      · rename_i h
        rw [h] at ih
        simp only [List.length_cons] at ih ⊢
        omega

theorem reportSpans_length (r : Report) :
    (reportSpans r).length = (spans (str_at r.message) r.len.toNat).length := by
  have h := spans_ne_nil (str_at r.message) r.len.toNat
  rw [reportSpans_eq]
  cases hs : spans (str_at r.message) r.len.toNat with
  | nil => exact absurd hs h
  | cons a l => simp

theorem expected_length_le (vis : Report → Bool) (a1 : SpaceInfo) (rs : List Report)
    (n : Nat) (t : Int) :
    (expected vis a1 rs n t).length ≤ lineBudget (rs.take n) := by
  induction n generalizing t with
  | zero => simp [expected]
  | succ n ih =>
    simp only [expected]
    cases hr : rs[n]? with
    | none =>
      have hn : rs.length ≤ n := by
        by_contra hc
        rw [List.getElem?_eq_getElem (by omega)] at hr
        exact Option.noConfusion hr
      have h1 := ih t
      rw [List.take_of_length_le hn] at h1
      rw [List.take_of_length_le (by omega)]
      simpa using h1
    | some r =>
      have hb : lineBudget (rs.take (n + 1)) = lineBudget (rs.take n) + (r.len.toNat + 1) := by
        rw [List.take_succ, hr]
        simp [lineBudget]
      have hs := spans_length_le (str_at r.message) r.len.toNat
      have hl := reportSpans_length r
      simp only []
      split
      · have h1 := ih (t + 1)
        simp only [List.length_append, List.length_map]
        omega
      · have h1 := ih t
        omega

theorem begin_eq (vis : Report → Bool) (tvc : TextViewContext) :
    report_textview_begin vis tvc =
      match prevVisible vis tvc.arg2 tvc.arg2.length with
      | none =>
        some ({ tvc with sel_start := 0, sel_end := 0, iter := none, iter_tmp := 0 }, false)
      | some j =>
        match tvc.arg2[j]? with
        | none => none
        | some r =>
          some (lineCtx tvc.arg1 tvc.arg2 j 0
            (((scanLoop (str_at r.message) r.len.toNat : Nat) : Int), r.len), true) := by
  cases hlen : tvc.arg2.length with
  | zero =>
    simp [report_textview_begin, list_last, hlen, prevVisible]
  | succ m =>
    have hm : m < tvc.arg2.length := by omega
    simp only [report_textview_begin, list_last, hlen, report_textview_skip__internal,
      skipLoop_eq vis tvc.arg2 m hm]
    cases hp : prevVisible vis tvc.arg2 (m + 1) with
    | none => simp
    | some j =>
      simp only [Option.isSome_some, deref, report_textview_init__internal]
      cases hj : tvc.arg2[j]? with
      | none => simp
      | some r => simp [lineCtx]

theorem traversal_eq (vis : Report → Bool) (tvc : TextViewContext) :
    traversal vis tvc = some (expected vis tvc.arg1 tvc.arg2 tvc.arg2.length 0) := by
  have hlen := expected_length_le vis tvc.arg1 tvc.arg2 tvc.arg2.length 0
  rw [List.take_length] at hlen
  rw [expected_unfold] at hlen ⊢
  simp only [traversal, begin_eq]
  cases hp : prevVisible vis tvc.arg2 tvc.arg2.length with
  | none => simp
  | some j =>
    obtain ⟨_, r, hr, _⟩ := prevVisible_some vis tvc.arg2 _ j hp
    simp only [hp, hr] at hlen ⊢
    have h := stepLoop_report vis tvc.arg1 tvc.arg2 j r 0 r.len.toNat r.len
      (lineBudget tvc.arg2) hr
      (by
        simp only [reportSpans_eq, List.map_cons, List.length_append, List.length_cons,
          List.length_map, zero_add] at hlen
        simp only [zero_add]
        omega)
    rw [h]
    simp [reportSpans_eq]

theorem expected_iter_lt (vis : Report → Bool) (a1 : SpaceInfo) (rs : List Report)
    (n : Nat) (t : Int) :
    ∀ s ∈ expected vis a1 rs n t, ∃ j, s.iter = some j ∧ j < n := by
  induction n generalizing t with
  | zero => simp [expected]
  | succ n ih =>
    intro s hs
    simp only [expected] at hs
    cases hr : rs[n]? with
    | none =>
      simp only [hr] at hs
      obtain ⟨j, h1, h2⟩ := ih t s hs
      exact ⟨j, h1, by omega⟩
    | some r =>
      simp only [hr] at hs
      by_cases hv : vis r = true
      · simp only [hv, if_true, List.mem_append, List.mem_map] at hs
        rcases hs with ⟨p, _, hp⟩ | hs
        · exact ⟨n, by rw [← hp]; rfl, by omega⟩
        · obtain ⟨j, h1, h2⟩ := ih (t + 1) s hs
          exact ⟨j, h1, by omega⟩
      · simp only [hv, if_false] at hs
        obtain ⟨j, h1, h2⟩ := ih t s hs
        exact ⟨j, h1, by omega⟩

theorem visibleBetween_self (vis : Report → Bool) (rs : List Report) (n : Nat) :
    visibleBetween vis rs n (n + 1) = 0 := by
  have h : ((rs.take (n + 1)).drop (n + 1)) = [] := by
    apply List.drop_eq_nil_of_le
    simp only [List.length_take]
    omega
  simp [visibleBetween, h]

theorem visibleBetween_succ (vis : Report → Bool) (rs : List Report) (i n : Nat) (r : Report)
    (hin : i < n) (hr : rs[n]? = some r) :
    visibleBetween vis rs i (n + 1) =
      visibleBetween vis rs i n + (if vis r = true then 1 else 0) := by
  have hn : n < rs.length := by
    by_contra hc
    rw [List.getElem?_eq_none (by omega)] at hr
    exact Option.noConfusion hr
  have hlen : (rs.take n).length = n := by
    simp only [List.length_take]; omega
  simp only [visibleBetween]
  rw [List.take_succ, hr]
  simp only [Option.toList]
  rw [List.drop_append_of_le_length (by omega)]
  rw [List.countP_append]
  simp [List.countP_cons]

theorem visibleBetween_length (vis : Report → Bool) (rs : List Report) (i : Nat) :
    visibleBetween vis rs i rs.length = (rs.drop (i + 1)).countP vis := by
  simp [visibleBetween]

/-- The lines of a visible report form one block of the trace: before it come
lines of reports further down the list, after it lines of reports before it. -/
theorem expected_split (vis : Report → Bool) (a1 : SpaceInfo) (rs : List Report)
    (i : Nat) (r : Report) (hr : rs[i]? = some r) (hv : vis r = true) :
    ∀ (n : Nat) (t : Int), i < n → n ≤ rs.length →
      ∃ pre, expected vis a1 rs n t =
          pre ++ ((reportSpans r).map (lineCtx a1 rs i (t + visibleBetween vis rs i n)) ++
            expected vis a1 rs i (t + visibleBetween vis rs i n + 1)) ∧
        ∀ s ∈ pre, ∃ j, s.iter = some j ∧ i < j := by
  intro n
  induction n with
  | zero => intro t h; omega
  | succ n ih =>
    intro t hin hn
    by_cases hi : i = n
    · subst hi
      refine ⟨[], ?_, by simp⟩
      simp [expected, hr, hv, visibleBetween_self]
    · have hin' : i < n := by omega
      have hn' : n < rs.length := by omega
      have hrn : rs[n]? = some rs[n] := List.getElem?_eq_getElem hn'
      have hvb := visibleBetween_succ vis rs i n rs[n] hin' hrn
      simp only [expected, hrn]
      by_cases hvn : vis rs[n] = true
      · obtain ⟨pre, hpre, hmem⟩ := ih (t + 1) hin' (by omega)
        refine ⟨(reportSpans rs[n]).map (lineCtx a1 rs n t) ++ pre, ?_, ?_⟩
        · simp only [hvn, if_true] at hvb ⊢
          rw [hpre, hvb]
          have e1 : t + 1 + (visibleBetween vis rs i n : Int) =
              t + ((visibleBetween vis rs i n + 1 : Nat) : Int) := by push_cast; ring
          rw [e1]
          simp
        · intro s hs
          simp only [List.mem_append, List.mem_map] at hs
          rcases hs with ⟨p, _, hp⟩ | hs
          · exact ⟨n, by rw [← hp]; rfl, hin'⟩
          · exact hmem s hs
      · obtain ⟨pre, hpre, hmem⟩ := ih t hin' (by omega)
        refine ⟨pre, ?_, hmem⟩
        simp only [hvn] at hvb ⊢
        simp only [Bool.false_eq_true, if_false, Nat.add_zero] at hvb ⊢
        rw [hpre, hvb]

/-- The lines of the trace whose cursor is a given visible report. -/
theorem expected_filter (vis : Report → Bool) (a1 : SpaceInfo) (rs : List Report)
    (i : Nat) (r : Report) (hr : rs[i]? = some r) (hv : vis r = true) :
    (expected vis a1 rs rs.length 0).filter (fun s => decide (s.iter = some i)) =
      (reportSpans r).map (lineCtx a1 rs i ((rs.drop (i + 1)).countP vis : Nat)) := by
  have hi : i < rs.length := by
    by_contra hc
    rw [List.getElem?_eq_none (by omega)] at hr
    exact Option.noConfusion hr
  obtain ⟨pre, hpre, hmem⟩ := expected_split vis a1 rs i r hr hv rs.length 0 hi le_rfl
  rw [hpre, visibleBetween_length]
  simp only [List.filter_append, zero_add]
  have h1 : pre.filter (fun s => decide (s.iter = some i)) = [] := by
    rw [List.filter_eq_nil_iff]
    intro s hs
    obtain ⟨j, hj, hlt⟩ := hmem s hs
    simp only [hj, Option.some.injEq, decide_eq_true_eq]
    omega
  have h3 : (expected vis a1 rs i (((rs.drop (i + 1)).countP vis : Nat) + 1)).filter
      (fun s => decide (s.iter = some i)) = [] := by
    rw [List.filter_eq_nil_iff]
    intro s hs
    obtain ⟨j, hj, hlt⟩ := expected_iter_lt vis a1 rs i _ s hs
    simp only [hj, Option.some.injEq, decide_eq_true_eq]
    omega
  have h2 : ((reportSpans r).map (lineCtx a1 rs i ((rs.drop (i + 1)).countP vis : Nat))).filter
      (fun s => decide (s.iter = some i)) =
      (reportSpans r).map (lineCtx a1 rs i ((rs.drop (i + 1)).countP vis : Nat)) := by
    rw [List.filter_eq_self]
    intro s hs
    simp only [List.mem_map] at hs
    obtain ⟨p, _, hp⟩ := hs
    rw [← hp]
    simp [lineCtx]
  rw [h1, h2, h3]
  simp

theorem intercalate_singleton (sep x : List Char) : List.intercalate sep [x] = x := by
  simp [List.intercalate]

theorem intercalate_cons_cons (sep x y : List Char) (l : List (List Char)) :
    List.intercalate sep (x :: y :: l) = x ++ sep ++ List.intercalate sep (y :: l) := by
  simp [List.intercalate]

theorem intercalate_concat (sep x : List Char) (ys : List (List Char)) (h : ys ≠ []) :
    List.intercalate sep (ys ++ [x]) = List.intercalate sep ys ++ sep ++ x := by
  induction ys with
  | nil => exact absurd rfl h
  | cons a ys ih =>
    cases ys with
    | nil => simp [intercalate_cons_cons, intercalate_singleton]
    | cons b ys =>
      have := ih (by simp)
      simp only [List.cons_append] at this ⊢
      rw [intercalate_cons_cons, this, intercalate_cons_cons]
      simp

theorem intercalate_concat_append (sep x c : List Char) (ys : List (List Char)) :
    List.intercalate sep (ys ++ [x ++ c]) = List.intercalate sep (ys ++ [x]) ++ c := by
  by_cases h : ys = []
  · subst h; simp [intercalate_singleton]
  · rw [intercalate_concat sep _ ys h, intercalate_concat sep _ ys h]
    simp

theorem spanText_succ (msg : List Char) (b e : Nat) (hb : b ≤ e) (he : e < msg.length) :
    spanText msg (b, e + 1) = spanText msg (b, e) ++ [msg[e]] := by
  simp only [spanText]
  have h1 : e + 1 - b = (e - b) + 1 := by omega
  rw [h1, List.take_succ]
  have h2 : (msg.drop b)[e - b]? = some msg[e] := by
    rw [List.getElem?_drop]
    have : b + (e - b) = e := by omega
    rw [this]
    exact List.getElem?_eq_getElem he
  rw [h2]
  rfl

theorem str_at_eq (msg : List Char) (e : Nat) (he : e < msg.length) :
    str_at msg e = msg[e] := by
  simp [str_at, List.getD_eq_getElem?_getD, List.getElem?_eq_getElem he]

/-- Joining the spans of a prefix of the message, in reading order, with one
newline between neighbours gives the prefix back. -/
theorem spans_join (msg : List Char) (e : Nat) (he : e ≤ msg.length) :
    List.intercalate ['\n'] ((spans (str_at msg) e).map (spanText msg)).reverse =
      msg.take e := by
  induction e with
  | zero => simp [spans, spanText, intercalate_singleton]
  | succ e ih =>
    have he' : e < msg.length := by omega
    have ih' := ih (by omega)
    have hun := spans_unfold (str_at msg) e
    have hle := scanLoop_le (str_at msg) e
    simp only [spans]
    by_cases hc : str_at msg e = '\n'
    · simp only [hc, if_true, List.map_cons, List.reverse_cons]
      have hne : ((spans (str_at msg) e).map (spanText msg)).reverse ≠ [] := by
        simp [spans_ne_nil]
      rw [intercalate_concat _ _ _ hne, ih', List.take_succ,
        List.getElem?_eq_getElem he', ← str_at_eq msg e he', hc]
      simp [spanText]
    · simp only [hc, if_false]
      rw [hun] at ih' ⊢
      simp only [List.map_cons, List.reverse_cons] at ih' ⊢
      rw [spanText_succ msg _ e hle he', intercalate_concat_append, ih', List.take_succ,
        List.getElem?_eq_getElem he']
      rfl

theorem line_get_lineCtx (a1 : SpaceInfo) (rs : List Report) (i : Nat) (t : Int)
    (p : Int × Int) (r : Report) (hr : rs[i]? = some r) :
    report_textview_line_get (lineCtx a1 rs i t p) =
      some { line := r.message.drop p.1.toNat, len := p.2 - p.1 } := by
  simp [report_textview_line_get, lineCtx, deref, hr]

/-- For a report whose `len` is the length of its message, the spans are those
of the whole message. -/
theorem reportSpans_of_len (r : Report) (hlen : r.len = r.message.length) :
    reportSpans r = (spans (str_at r.message) r.message.length).map castSpan := by
  rw [reportSpans_eq, hlen]
  simp only [Int.toNat_ofNat]
  conv_rhs => rw [spans_unfold]
  rw [spans_tail]
  simp [castSpan]

theorem spans_count (msg : List Char) (e : Nat) (he : e ≤ msg.length) :
    (spans (str_at msg) e).length = (msg.take e).count '\n' + 1 := by
  induction e with
  | zero => simp [spans]
  | succ e ih =>
    have he' : e < msg.length := by omega
    have ih' := ih (by omega)
    rw [List.take_succ, List.getElem?_eq_getElem he', List.count_append]
    simp only [spans, Option.toList]
    by_cases hc : str_at msg e = '\n'
    · have hc' : msg[e] = '\n' := by rw [← str_at_eq msg e he']; exact hc
      simp only [hc, if_true, List.length_cons, ih', hc']
      simp
    · have hc' : ¬ msg[e] = '\n' := by rw [← str_at_eq msg e he']; exact hc
      simp only [hc, if_false]
      have hne := spans_ne_nil (str_at msg) e
      cases hs : spans (str_at msg) e with
      | nil => exact absurd hs hne
      | cons a l =>
        rw [hs] at ih'
        simp only [List.length_cons] at ih' ⊢
        rw [ih']
        simp [List.count_cons, hc']

/-- All lines of a prefix but the last one emitted start after a newline; the
last one emitted starts at offset 0. -/
theorem spans_init_last (str : Nat → Char) (e : Nat) :
    ∃ init e0, spans str e = init ++ [(0, e0)] ∧ ∀ p ∈ init, 0 < p.1 := by
  induction e using Nat.strong_induction_on with
  | _ e ih =>
    rw [spans_unfold]
    by_cases hb : scanLoop str e = 0
    · exact ⟨[], e, by simp [hb], by simp⟩
    · have hle := scanLoop_le str e
      obtain ⟨init, e0, h1, h2⟩ := ih (scanLoop str e - 1) (by omega)
      refine ⟨(scanLoop str e, e) :: init, e0, by simp [hb, h1], ?_⟩
      intro p hp
      simp only [List.mem_cons] at hp
      rcases hp with hp | hp
      · subst hp; exact Nat.pos_of_ne_zero hb
      · exact h2 p hp

theorem reportSpans_init_last (r : Report) :
    ∃ init e0, reportSpans r = init ++ [(0, e0)] ∧ ∀ p ∈ init, 0 < p.1 := by
  rw [reportSpans_eq, spans_tail]
  by_cases hb : scanLoop (str_at r.message) r.len.toNat = 0
  · exact ⟨[], r.len, by simp [hb], by simp⟩
  · obtain ⟨init, e0, h1, h2⟩ :=
      spans_init_last (str_at r.message) (scanLoop (str_at r.message) r.len.toNat - 1)
    refine ⟨(((scanLoop (str_at r.message) r.len.toNat : Nat) : Int), r.len) ::
      init.map castSpan, (e0 : Int), by simp [hb, h1, castSpan], ?_⟩
    intro p hp
    simp only [List.mem_cons, List.mem_map] at hp
    rcases hp with hp | ⟨q, hq, hp⟩
    · subst hp
      have := Nat.pos_of_ne_zero hb
      simp only []
      omega
    · subst hp
      have := h2 q hq
      simp only [castSpan]
      omega

theorem step_lineCtx_inside (vis : Report → Bool) (a1 : SpaceInfo) (rs : List Report)
    (i : Nat) (t : Int) (p : Int × Int) (r : Report) (hr : rs[i]? = some r) (hp : 0 < p.1) :
    ∃ s', report_textview_step vis (lineCtx a1 rs i t p) = some (s', true) ∧
      s'.iter = some i ∧ s'.iter_tmp = t := by
  have h := step_inside vis (lineCtx a1 rs i t p) r hp (by simpa [lineCtx, deref] using hr)
  exact ⟨_, h, rfl, rfl⟩

theorem step_lineCtx_leave (vis : Report → Bool) (a1 : SpaceInfo) (rs : List Report)
    (i : Nat) (t : Int) (p : Int × Int) (r : Report) (hr : rs[i]? = some r) (hp : p.1 ≤ 0) :
    ∃ s' b, report_textview_step vis (lineCtx a1 rs i t p) = some (s', b) ∧
      ((b = false ∧ s'.iter = none) ∨
        (b = true ∧ ∃ j, s'.iter = some j ∧ j < i ∧ s'.iter_tmp = t + 1)) := by
  have hi : i < rs.length := by
    by_contra hc
    rw [List.getElem?_eq_none (by omega)] at hr
    exact Option.noConfusion hr
  have h := step_leave vis (lineCtx a1 rs i t p) i hp rfl hi
  simp only [lineCtx] at h
  cases hpv : prevVisible vis rs i with
  | none =>
    rw [hpv] at h
    exact ⟨_, false, h, Or.inl ⟨rfl, rfl⟩⟩
  | some j =>
    obtain ⟨hji, r', hr', _⟩ := prevVisible_some vis rs i j hpv
    rw [hpv] at h
    simp only [hr'] at h
    exact ⟨_, true, h, Or.inr ⟨rfl, j, rfl, hji, rfl⟩⟩

theorem destutter'_block (a : Option Nat) (l1 l2 : List (Option Nat))
    (h1 : ∀ x ∈ l1, x = a) (h2 : ∀ x ∈ l2, x ≠ a) :
    List.destutter' (· ≠ ·) a (l1 ++ l2) = a :: List.destutter (· ≠ ·) l2 := by
  induction l1 with
  | nil =>
    cases l2 with
    | nil => simp
    | cons b l2 =>
      have hb : a ≠ b := fun h => h2 b (by simp) h.symm
      simp only [List.nil_append]
      rw [List.destutter'_cons_pos _ hb, List.destutter_cons']
  | cons y l1 ih =>
    have hy : y = a := h1 y (by simp)
    subst hy
    simp only [List.cons_append]
    rw [List.destutter'_cons_neg _ (by simp)]
    exact ih (fun x hx => h1 x (by simp [hx]))

theorem destutter_block (a : Option Nat) (l1 l2 : List (Option Nat)) (hne : l1 ≠ [])
    (h1 : ∀ x ∈ l1, x = a) (h2 : ∀ x ∈ l2, x ≠ a) :
    List.destutter (· ≠ ·) (l1 ++ l2) = a :: List.destutter (· ≠ ·) l2 := by
  cases l1 with
  | nil => exact absurd rfl hne
  | cons y l1 =>
    have hy : y = a := h1 y (by simp)
    subst hy
    simp only [List.cons_append, List.destutter_cons']
    exact destutter'_block y l1 l2 (fun x hx => h1 x (by simp [hx])) h2

theorem reportSpans_ne_nil (r : Report) : reportSpans r ≠ [] := by
  rw [reportSpans_eq]; simp

theorem expected_cursors (vis : Report → Bool) (a1 : SpaceInfo) (rs : List Report)
    (n : Nat) (t : Int) :
    ((expected vis a1 rs n t).map (fun s => s.iter)).destutter (· ≠ ·) =
      (((List.range n).filter (visibleAt vis rs)).reverse.map some) := by
  induction n generalizing t with
  | zero => simp [expected]
  | succ n ih =>
    rw [List.range_succ, List.filter_append, List.reverse_append]
    simp only [expected, visibleAt, List.filter_cons, List.filter_nil]
    cases hr : rs[n]? with
    | none => simpa [visibleAt] using ih t
    | some r =>
      by_cases hv : vis r = true
      · simp only [hv, if_true, List.map_append, List.reverse_cons, List.reverse_nil,
          List.nil_append, List.singleton_append, List.map_cons]
        rw [destutter_block (some n)]
        · rw [ih (t + 1)]
        · simp [reportSpans_ne_nil]
        · intro x hx
          simp only [List.map_map, List.mem_map, Function.comp] at hx
          obtain ⟨p, _, hp⟩ := hx
          rw [← hp]; rfl
        · intro x hx
          simp only [List.mem_map] at hx
          obtain ⟨s, hs, hx⟩ := hx
          obtain ⟨j, hj, hlt⟩ := expected_iter_lt vis a1 rs n _ s hs
          rw [← hx, hj]
          simp only [ne_eq, Option.some.injEq]
          omega
      · simpa [hv, visibleAt] using ih t

theorem expected_visible (vis : Report → Bool) (a1 : SpaceInfo) (rs : List Report)
    (n : Nat) (t : Int) :
    ∀ s ∈ expected vis a1 rs n t, ∃ j r, s.iter = some j ∧ rs[j]? = some r ∧ vis r = true := by
  induction n generalizing t with
  | zero => simp [expected]
  | succ n ih =>
    intro s hs
    simp only [expected] at hs
    cases hr : rs[n]? with
    | none =>
      simp only [hr] at hs
      exact ih t s hs
    | some r =>
      simp only [hr] at hs
      by_cases hv : vis r = true
      · simp only [hv, if_true, List.mem_append, List.mem_map] at hs
        rcases hs with ⟨p, _, hp⟩ | hs
        · exact ⟨n, r, by rw [← hp]; rfl, hr, hv⟩
        · exact ih (t + 1) s hs
      · simp only [hv, if_false] at hs
        exact ih t s hs

theorem draw_icon_none (K : ReportDefs) (s : TextViewContext) (r : Report)
    (hr : deref s.arg2 s.iter = some r) (hb : s.iter_char_begin ≠ 0) :
    ∃ d, report_line_draw_data K s = some d ∧ d.r_icon = Icon.ICON_NONE := by
  simp [report_line_draw_data, hr, hb]

theorem draw_icon_head (K : ReportDefs) (s : TextViewContext) (r : Report)
    (hr : deref s.arg2 s.iter = some r) (hb : s.iter_char_begin = 0)
    (hcat : r.type &&& K.RPT_ERROR_ALL ≠ 0 ∨ r.type &&& K.RPT_WARNING_ALL ≠ 0 ∨
      r.type &&& K.RPT_INFO_ALL ≠ 0 ∨ r.type &&& K.RPT_PROPERTY ≠ 0 ∨
      r.type &&& K.RPT_OPERATOR ≠ 0) :
    ∃ d, report_line_draw_data K s = some d ∧ d.r_icon ≠ Icon.ICON_NONE := by
  simp only [report_line_draw_data, hr, hb]
  by_cases h1 : r.type &&& K.RPT_ERROR_ALL = 0
  · by_cases h2 : r.type &&& K.RPT_WARNING_ALL = 0
    · by_cases h3 : r.type &&& K.RPT_INFO_ALL = 0
      · by_cases h4 : r.type &&& K.RPT_PROPERTY = 0
        · by_cases h5 : r.type &&& K.RPT_OPERATOR = 0
          · simp [h1, h2, h3, h4, h5] at hcat
          · by_cases hs : r.flag &&& K.RPT_SELECT = 0 <;> simp [h1, h2, h3, h4, h5, hs]
        · by_cases hs : r.flag &&& K.RPT_SELECT = 0 <;> simp [h1, h2, h3, h4, hs]
      · by_cases hs : r.flag &&& K.RPT_SELECT = 0 <;> simp [h1, h2, h3, hs]
    · by_cases hs : r.flag &&& K.RPT_SELECT = 0 <;> simp [h1, h2, hs]
  · by_cases hs : r.flag &&& K.RPT_SELECT = 0 <;> simp [h1, hs]

theorem getElem?_some_lt (rs : List Report) (i : Nat) (r : Report) (h : rs[i]? = some r) :
    i < rs.length := by
  by_contra hc
  rw [List.getElem?_eq_none (by omega)] at h
  exact Option.noConfusion h

theorem prevVisible_between (vis : Report → Bool) (rs : List Report) (n j : Nat)
    (h : prevVisible vis rs n = some j) : visibleBetween vis rs j n = 0 := by
  induction n with
  | zero => simp [prevVisible] at h
  | succ n ih =>
    simp only [prevVisible] at h
    cases hr : rs[n]? with
    | none =>
      simp only [hr] at h
      have hn : rs.length ≤ n := by
        by_contra hc
        rw [List.getElem?_eq_getElem (by omega)] at hr
        exact Option.noConfusion hr
      have := ih h
      simp only [visibleBetween] at this ⊢
      rw [List.take_of_length_le (by omega)]
      rw [List.take_of_length_le hn] at this
      exact this
    | some r =>
      simp only [hr] at h
      by_cases hv : vis r = true
      · simp only [hv, if_true, Option.some.injEq] at h
        subst h
        exact visibleBetween_self vis rs n
      · simp only [hv, if_false] at h
        obtain ⟨hjn, _⟩ := prevVisible_some vis rs n j h
        rw [visibleBetween_succ vis rs j n r hjn hr, ih h]
        simp [hv]

theorem countP_drop_prev (vis : Report → Bool) (rs : List Report) (i j : Nat) (r : Report)
    (hr : rs[i]? = some r) (hv : vis r = true) (h : prevVisible vis rs i = some j) :
    (rs.drop (j + 1)).countP vis = (rs.drop (i + 1)).countP vis + 1 := by
  have hi := getElem?_some_lt rs i r hr
  obtain ⟨hji, _⟩ := prevVisible_some vis rs i j h
  have hb := prevVisible_between vis rs i j h
  simp only [visibleBetween] at hb
  have h1 : rs.drop (j + 1) = (rs.take i).drop (j + 1) ++ rs.drop i := by
    conv_lhs => rw [← List.take_append_drop i rs]
    rw [List.drop_append_of_le_length]
    simp only [List.length_take]
    omega
  have h2 : rs.drop i = r :: rs.drop (i + 1) := by
    rw [List.drop_eq_getElem_cons hi]
    congr 1
    rw [List.getElem?_eq_getElem hi] at hr
    exact Option.some.inj hr
  rw [h1, h2, List.countP_append, hb, List.countP_cons]
  simp [hv]

/-- What holds in every state of a traversal: the context still names the list
and the space, the cursor is on a visible report, the counter is the number of
visible reports after it, and the offsets are those the scan left. -/
theorem reached_inv (vis : Report → Bool) (tvc0 s : TextViewContext)
    (h : Reached vis tvc0 s) :
    s.arg1 = tvc0.arg1 ∧ s.arg2 = tvc0.arg2 ∧ s.sel_start = 0 ∧ s.sel_end = 0 ∧
    ∃ i r, s.iter = some i ∧ tvc0.arg2[i]? = some r ∧ vis r = true ∧
      s.iter_tmp = ((tvc0.arg2.drop (i + 1)).countP vis : Nat) ∧
      s.iter_char_begin = (scanLoop (str_at r.message) s.iter_char_end.toNat : Nat) ∧
      s.iter_char_end ≤ r.len ∧ (s.iter_char_end = r.len ∨ 0 ≤ s.iter_char_end) := by
  induction h with
  | start s hs =>
    rw [begin_eq] at hs
    cases hp : prevVisible vis tvc0.arg2 tvc0.arg2.length with
    | none => simp [hp] at hs
    | some j =>
      obtain ⟨_, r, hr, hv⟩ := prevVisible_some vis tvc0.arg2 _ j hp
      simp only [hp, hr, Option.some.injEq, Prod.mk.injEq, and_true] at hs
      subst hs
      have hc := prevVisible_between vis tvc0.arg2 _ j hp
      rw [visibleBetween_length] at hc
      refine ⟨rfl, rfl, rfl, rfl, j, r, rfl, hr, hv, ?_, rfl, le_rfl, Or.inl rfl⟩
      simp [lineCtx, hc]
  | next s s' _ hstep ih =>
    obtain ⟨h1, h2, h3, h4, i, r, hi, hr, hv, ht, hb, he, _⟩ := ih
    have hlt := getElem?_some_lt _ i r hr
    by_cases hpos : 0 < s.iter_char_begin
    · have hd : deref s.arg2 s.iter = some r := by rw [h2, hi]; exact hr
      rw [step_inside vis s r hpos hd] at hstep
      simp only [Option.some.injEq, Prod.mk.injEq, and_true] at hstep
      subst hstep
      have := scanLoop_le (str_at r.message) s.iter_char_end.toNat
      refine ⟨h1, h2, h3, h4, i, r, hi, hr, hv, ht, rfl, ?_, Or.inr ?_⟩
      · simp only []
        omega
      · simp only []
        omega
    · rw [step_leave vis s i (by omega) hi (by rw [h2]; exact hlt)] at hstep
      rw [h2] at hstep
      cases hp : prevVisible vis tvc0.arg2 i with
      | none => simp [hp] at hstep
      | some j =>
        obtain ⟨_, r', hr', hv'⟩ := prevVisible_some vis tvc0.arg2 i j hp
        simp only [hp, hr', Option.some.injEq, Prod.mk.injEq, and_true] at hstep
        subst hstep
        refine ⟨h1, rfl, h3, h4, j, r', rfl, hr', hv', ?_, rfl, le_rfl, Or.inl rfl⟩
        simp only [ht, countP_drop_prev vis tvc0.arg2 i j r hr hv hp]
        push_cast
        rfl

theorem prevVisible_none (vis : Report → Bool) (rs : List Report) (n : Nat)
    (h : prevVisible vis rs n = none) :
    ∀ k r, k < n → rs[k]? = some r → vis r = false := by
  induction n with
  | zero => intro k r hk; omega
  | succ n ih =>
    intro k r hk hr
    simp only [prevVisible] at h
    cases hn : rs[n]? with
    | none =>
      simp only [hn] at h
      by_cases hkn : k = n
      · subst hkn; rw [hn] at hr; exact Option.noConfusion hr
      · exact ih h k r (by omega) hr
    | some rn =>
      simp only [hn] at h
      by_cases hv : vis rn = true
      · simp [hv] at h
      · simp only [hv, if_false] at h
        by_cases hkn : k = n
        · subst hkn
          rw [hn] at hr
          have := Option.some.inj hr
          subst this
          simpa using hv
        · exact ih h k r (by omega) hr

theorem prevVisible_later (vis : Report → Bool) (rs : List Report) (n j : Nat)
    (h : prevVisible vis rs n = some j) :
    ∀ k r, j < k → k < n → rs[k]? = some r → vis r = false := by
  induction n with
  | zero => intro k r _ hk; omega
  | succ n ih =>
    intro k r hjk hk hr
    simp only [prevVisible] at h
    cases hn : rs[n]? with
    | none =>
      simp only [hn] at h
      by_cases hkn : k = n
      · subst hkn; rw [hn] at hr; exact Option.noConfusion hr
      · exact ih h k r hjk (by omega) hr
    | some rn =>
      simp only [hn] at h
      by_cases hv : vis rn = true
      · simp only [hv, if_true, Option.some.injEq] at h
        omega
      · simp only [hv, if_false] at h
        by_cases hkn : k = n
        · subst hkn
          rw [hn] at hr
          have := Option.some.inj hr
          subst this
          simpa using hv
        · exact ih h k r hjk (by omega) hr

theorem expected_exposed (vis : Report → Bool) (a1 a1' : SpaceInfo) (rs : List Report)
    (n : Nat) (t : Int) :
    (expected vis a1 rs n t).map exposed = (expected vis a1' rs n t).map exposed := by
  induction n generalizing t with
  | zero => simp [expected]
  | succ n ih =>
    simp only [expected]
    cases hr : rs[n]? with
    | none => exact ih t
    | some r =>
      by_cases hv : vis r = true
      · simp only [hv, if_true, List.map_append, List.map_map, ih (t + 1)]
        rfl
      · simpa [hv] using ih t

theorem reportSpans_zero (r : Report) (hlen : r.len = 0) : reportSpans r = [(0, 0)] := by
  rw [reportSpans_eq, hlen]
  simp [scanLoop, spans]

/-! ## Line splitting -/

/-- C1: for a visible report whose `len` is the length of its message, the
display lines the traversal exposes for it, each read as
`report_textview_line_get` reads it, taken in reverse order of emission and
joined with one newline between consecutive lines, are the message. -/
theorem round_trip_of_lines (vis : Report → Bool) (tvc : TextViewContext) (i : Nat) (R : Report)
    (hi : tvc.arg2[i]? = some R) (hv : vis R = true) (hlen : R.len = R.message.length) :
    ∃ (trace : List TextViewContext) (lines : List TextLine), traversal vis tvc = some trace ∧
      (trace.filter (fun s => decide (s.iter = some i))).map report_textview_line_get =
        lines.map some ∧
      List.intercalate ['\n'] (lines.map TextLine.text).reverse = R.message := by
  refine ⟨_, (reportSpans R).map
    (fun p => TextLine.mk (R.message.drop p.1.toNat) (p.2 - p.1)), traversal_eq vis tvc, ?_, ?_⟩
  · rw [expected_filter vis tvc.arg1 tvc.arg2 i R hi hv]
    simp only [List.map_map]
    apply List.map_congr_left
    intro p _
    exact line_get_lineCtx _ _ _ _ p R hi
  · rw [reportSpans_of_len R hlen]
    have h := spans_join R.message R.message.length le_rfl
    rw [List.take_length] at h
    refine Eq.trans ?_ h
    congr 2
    simp only [List.map_map]
    apply List.map_congr_left
    intro p _
    simp only [Function.comp, TextLine.text, castSpan, spanText, Int.toNat_ofNat]
    congr 1
    omega

/-- The round trip on the first report of the sample list, `a\nb`. -/
theorem round_trip_of_lines_witness :
    sampleReports[0]? = some { type := 2, flag := 0, len := 3, message := ['a', '\n', 'b'] } ∧
    showAll { type := 2, flag := 0, len := 3, message := ['a', '\n', 'b'] } = true ∧
    ((3 : Int) = (['a', '\n', 'b'] : List Char).length) ∧
    ∃ (trace : List TextViewContext) (lines : List TextLine), traversal showAll (tvc_init ⟨0⟩ sampleReports) = some trace ∧
      (trace.filter (fun s => decide (s.iter = some 0))).map report_textview_line_get =
        lines.map some ∧
      List.intercalate ['\n'] (lines.map TextLine.text).reverse = ['a', '\n', 'b'] :=
  ⟨by decide, by decide, by decide,
    round_trip_of_lines showAll (tvc_init ⟨0⟩ sampleReports) 0
      { type := 2, flag := 0, len := 3, message := ['a', '\n', 'b'] }
      (by decide) (by decide) (by decide)⟩

/-- C2: a visible report whose message, of length `len`, holds `k` newline
characters gets `k + 1` consecutive display lines; the step after each of the
first `k` stays on the report, and the step after line `k + 1` takes the
cursor to an earlier report of the list or to the end of the traversal. -/
theorem line_count_per_report (vis : Report → Bool) (tvc : TextViewContext) (i : Nat) (R : Report)
    (k : Nat) (hi : tvc.arg2[i]? = some R) (hv : vis R = true)
    (hlen : R.len = R.message.length) (hk : R.message.count '\n' = k) :
    ∃ (pre init : List TextViewContext) (last : TextViewContext) (post : List TextViewContext),
      traversal vis tvc = some (pre ++ (init ++ [last]) ++ post) ∧
      init.length = k ∧
      (∀ s ∈ init ++ [last], s.iter = some i) ∧
      (∀ s ∈ pre ++ post, s.iter ≠ some i) ∧
      (∀ s ∈ init, ∃ s', report_textview_step vis s = some (s', true) ∧ s'.iter = some i) ∧
      (∃ s' b, report_textview_step vis last = some (s', b) ∧
        (s'.iter = none ∨ ∃ j, s'.iter = some j ∧ j < i)) := by
  have hlt : i < tvc.arg2.length := by
    by_contra hc
    rw [List.getElem?_eq_none (by omega)] at hi
    exact Option.noConfusion hi
  obtain ⟨pre, hpre, hmem⟩ :=
    expected_split vis tvc.arg1 tvc.arg2 i R hi hv tvc.arg2.length 0 hlt le_rfl
  obtain ⟨init, e0, hinit, hpos⟩ := reportSpans_init_last R
  have hcount : (reportSpans R).length = k + 1 := by
    rw [reportSpans_of_len R hlen, List.length_map,
      spans_count R.message R.message.length le_rfl, List.take_length, hk]
  rw [hinit] at hpre hcount
  simp only [List.map_append, List.map_cons, List.map_nil] at hpre
  generalize (0 : Int) + (visibleBetween vis tvc.arg2 i tvc.arg2.length : Int) = t at hpre
  refine ⟨pre, init.map (lineCtx tvc.arg1 tvc.arg2 i t), lineCtx tvc.arg1 tvc.arg2 i t (0, e0),
    expected vis tvc.arg1 tvc.arg2 i (t + 1), ?_, ?_, ?_, ?_, ?_, ?_⟩
  · rw [traversal_eq, hpre]
    simp
  · simpa using hcount
  · intro s hs
    simp only [List.mem_append, List.mem_map, List.mem_singleton] at hs
    rcases hs with ⟨p, _, hp⟩ | hs
    · rw [← hp]; rfl
    · rw [hs]; rfl
  · intro s hs
    simp only [List.mem_append] at hs
    rcases hs with hs | hs
    · obtain ⟨j, hj, hlt⟩ := hmem s hs
      rw [hj]
      simp only [ne_eq, Option.some.injEq]
      omega
    · obtain ⟨j, hj, hlt⟩ := expected_iter_lt vis tvc.arg1 tvc.arg2 i _ s hs
      rw [hj]
      simp only [ne_eq, Option.some.injEq]
      omega
  · intro s hs
    simp only [List.mem_map] at hs
    obtain ⟨p, hp, hs⟩ := hs
    obtain ⟨s', h1, h2, _⟩ :=
      step_lineCtx_inside vis tvc.arg1 tvc.arg2 i _ p R hi (hpos p hp)
    rw [← hs]
    exact ⟨s', h1, h2⟩
  · obtain ⟨s', b, h1, h2⟩ :=
      step_lineCtx_leave vis tvc.arg1 tvc.arg2 i t (0, e0) R hi le_rfl
    refine ⟨s', b, h1, ?_⟩
    rcases h2 with ⟨_, h2⟩ | ⟨_, j, h2, h3, _⟩
    · exact Or.inl h2
    · exact Or.inr ⟨j, h2, h3⟩

/-- The line count on the first report of the sample list: one newline, two
lines. -/
theorem line_count_per_report_witness :
    sampleReports[0]? = some { type := 2, flag := 0, len := 3, message := ['a', '\n', 'b'] } ∧
    showAll { type := 2, flag := 0, len := 3, message := ['a', '\n', 'b'] } = true ∧
    ((3 : Int) = (['a', '\n', 'b'] : List Char).length) ∧
    (['a', '\n', 'b'] : List Char).count '\n' = 1 ∧
    ∃ (pre init : List TextViewContext) (last : TextViewContext) (post : List TextViewContext),
      traversal showAll (tvc_init ⟨0⟩ sampleReports) = some (pre ++ (init ++ [last]) ++ post) ∧
      init.length = 1 ∧
      (∀ s ∈ init ++ [last], s.iter = some 0) ∧
      (∀ s ∈ pre ++ post, s.iter ≠ some 0) ∧
      (∀ s ∈ init, ∃ s', report_textview_step showAll s = some (s', true) ∧ s'.iter = some 0) ∧
      (∃ s' b, report_textview_step showAll last = some (s', b) ∧
        (s'.iter = none ∨ ∃ j, s'.iter = some j ∧ j < 0)) :=
  ⟨by decide, by decide, by decide, by decide,
    line_count_per_report showAll (tvc_init ⟨0⟩ sampleReports) 0
      { type := 2, flag := 0, len := 3, message := ['a', '\n', 'b'] } 1
      (by decide) (by decide) (by decide) (by decide)⟩

/-! ## Filtering -/

/-- C3: the cursor rests on visible reports only, and the sequence of the
reports it rests on, one entry per run of consecutive lines, is the list of
the visible reports in reverse list order: none hidden, none skipped, none
visited twice. -/
theorem filtering_visible_reversed (vis : Report → Bool) (tvc : TextViewContext) :
    ∃ trace, traversal vis tvc = some trace ∧
      (∀ s ∈ trace, ∃ j r, s.iter = some j ∧ tvc.arg2[j]? = some r ∧ vis r = true) ∧
      (trace.map (fun s => s.iter)).destutter (· ≠ ·) =
        (visiblePositions vis tvc.arg2).reverse.map some :=
  ⟨_, traversal_eq vis tvc, expected_visible vis tvc.arg1 tvc.arg2 _ 0,
    expected_cursors vis tvc.arg1 tvc.arg2 _ 0⟩

/-! ## Icons -/

/-- C4, as stated, fails: on the sample list the first line emitted for the
info report `a\nb`, the tail line with offsets `[2, 3)`, gets `ICON_NONE`, and
the icon goes to the line emitted after it, with offsets `[0, 1)`. -/
theorem icon_on_tail_line_counterexample :
    (traversal showAll (tvc_init ⟨0⟩ sampleReports)).map
      (fun trace => (trace.filter (fun s => decide (s.iter = some 0))).map
        (fun s => (s.iter_char_begin, s.iter_char_end,
          (report_line_draw_data sampleDefs s).map (fun d => d.r_icon)))) =
      some [(2, 3, some Icon.ICON_NONE), (0, 1, some Icon.ICON_INFO)] := by
  decide

/-- C4, amended: for a visible report with one of the five categories, exactly
one of its display lines gets an icon other than `ICON_NONE`, and it is the
last line emitted for the report, the one that starts at offset 0; every line
emitted before it gets `ICON_NONE`. -/
theorem icon_placement (K : ReportDefs) (vis : Report → Bool) (tvc : TextViewContext)
    (i : Nat) (R : Report) (hi : tvc.arg2[i]? = some R) (hv : vis R = true)
    (hcat : R.type &&& K.RPT_ERROR_ALL ≠ 0 ∨ R.type &&& K.RPT_WARNING_ALL ≠ 0 ∨
      R.type &&& K.RPT_INFO_ALL ≠ 0 ∨ R.type &&& K.RPT_PROPERTY ≠ 0 ∨
      R.type &&& K.RPT_OPERATOR ≠ 0) :
    ∃ (trace init : List TextViewContext) (last : TextViewContext) (d : LineDrawData),
      traversal vis tvc = some trace ∧
      trace.filter (fun s => decide (s.iter = some i)) = init ++ [last] ∧
      last.iter_char_begin = 0 ∧
      report_line_draw_data K last = some d ∧ d.r_icon ≠ Icon.ICON_NONE ∧
      ∀ s ∈ init, 0 < s.iter_char_begin ∧
        ∃ d', report_line_draw_data K s = some d' ∧ d'.r_icon = Icon.ICON_NONE := by
  obtain ⟨init, e0, hinit, hpos⟩ := reportSpans_init_last R
  have hf := expected_filter vis tvc.arg1 tvc.arg2 i R hi hv
  rw [hinit] at hf
  simp only [List.map_append, List.map_cons, List.map_nil] at hf
  have hd : ∀ t p, deref (lineCtx tvc.arg1 tvc.arg2 i t p).arg2
      (lineCtx tvc.arg1 tvc.arg2 i t p).iter = some R := by
    intro t p; simpa [lineCtx, deref] using hi
  obtain ⟨d, hd1, hd2⟩ := draw_icon_head K _ R (hd _ (0, e0)) rfl hcat
  refine ⟨_, _, _, d, traversal_eq vis tvc, hf, rfl, hd1, hd2, ?_⟩
  intro s hs
  simp only [List.mem_map] at hs
  obtain ⟨p, hp, hs⟩ := hs
  subst hs
  have hpp := hpos p hp
  refine ⟨hpp, draw_icon_none K _ R (hd _ p) ?_⟩
  simp only [lineCtx]
  omega

/-- The icon placement on the first report of the sample list. -/
theorem icon_placement_witness :
    sampleReports[0]? = some { type := 2, flag := 0, len := 3, message := ['a', '\n', 'b'] } ∧
    showAll { type := 2, flag := 0, len := 3, message := ['a', '\n', 'b'] } = true ∧
    (2 &&& sampleDefs.RPT_ERROR_ALL ≠ 0 ∨ 2 &&& sampleDefs.RPT_WARNING_ALL ≠ 0 ∨
      2 &&& sampleDefs.RPT_INFO_ALL ≠ 0 ∨ 2 &&& sampleDefs.RPT_PROPERTY ≠ 0 ∨
      2 &&& sampleDefs.RPT_OPERATOR ≠ 0) ∧
    ∃ (trace init : List TextViewContext) (last : TextViewContext) (d : LineDrawData),
      traversal showAll (tvc_init ⟨0⟩ sampleReports) = some trace ∧
      trace.filter (fun s => decide (s.iter = some 0)) = init ++ [last] ∧
      last.iter_char_begin = 0 ∧
      report_line_draw_data sampleDefs last = some d ∧ d.r_icon ≠ Icon.ICON_NONE ∧
      ∀ s ∈ init, 0 < s.iter_char_begin ∧
        ∃ d', report_line_draw_data sampleDefs s = some d' ∧ d'.r_icon = Icon.ICON_NONE :=
  ⟨by decide, by decide, by decide,
    icon_placement sampleDefs showAll (tvc_init ⟨0⟩ sampleReports) 0
      { type := 2, flag := 0, len := 3, message := ['a', '\n', 'b'] }
      (by decide) (by decide) (by decide)⟩

/-! ## The two-report scenario -/

/-- C5, as stated, fails: on the sample list the lines come out as `c`, `b`,
`a`, but `b` gets `ICON_NONE` and `a` the info icon, and both have the plain
`TH_BACK` background, the tone of `iter_tmp % 2 = 1`, not the blended tone of
`iter_tmp % 2 = 0`. -/
theorem scenario_two_reports_counterexample :
    (traversal showAll (tvc_init ⟨0⟩ sampleReports)).map
        (List.map (fun s => ((report_textview_line_get s).map TextLine.text, s.iter_tmp))) =
      some [(some ['c'], 0), (some ['b'], 1), (some ['a'], 1)] ∧
    (traversal showAll (tvc_init ⟨0⟩ sampleReports)).map
        (List.map (fun s => (report_line_draw_data sampleDefs s).map (fun d => d.r_icon))) =
      some [some Icon.ICON_CANCEL, some Icon.ICON_NONE, some Icon.ICON_INFO] ∧
    (traversal showAll (tvc_init ⟨0⟩ sampleReports)).map
        (List.map (fun s => (report_line_draw_data sampleDefs s).map (fun d => d.bg))) =
      some [some (some (Color.theme ThemeColorId.TH_INFO_SELECTED)),
        some (some (Color.theme ThemeColorId.TH_BACK)),
        some (some (Color.theme ThemeColorId.TH_BACK))] := by
  decide

/-- C5, amended: for the list of an unselected info report `a\nb` and a
selected, not active error report `c`, all visible, the traversal exposes the
three lines `c`, `b`, `a` and then `step` returns false; `c` has the icon
`ICON_CANCEL` with the selected override colours and the selected background;
`b` has no icon and the plain `TH_BACK` background of `iter_tmp = 1`; `a` has
the info icon and the same background as `b`. -/
theorem scenario_two_reports (K : ReportDefs) (a1 : SpaceInfo) (tI tE fU fS : Nat)
    (hI1 : tI &&& K.RPT_ERROR_ALL = 0) (hI2 : tI &&& K.RPT_WARNING_ALL = 0)
    (hI3 : tI &&& K.RPT_INFO_ALL ≠ 0) (hE : tE &&& K.RPT_ERROR_ALL ≠ 0)
    (hU : fU &&& K.RPT_SELECT = 0) (hS : fS &&& K.RPT_SELECT ≠ 0)
    (hact : a1.active_report_index ≠ 1) :
    ∃ (lc lb la s' : TextViewContext) (dc db da : LineDrawData),
      traversal showAll (tvc_init a1
        [ { type := tI, flag := fU, len := 3, message := ['a', '\n', 'b'] },
          { type := tE, flag := fS, len := 1, message := ['c'] } ]) = some [lc, lb, la] ∧
      report_textview_step showAll la = some (s', false) ∧
      exposed lc = (some 1, 0, 1, 0) ∧ exposed lb = (some 0, 2, 3, 1) ∧
      exposed la = (some 0, 0, 1, 1) ∧
      (report_textview_line_get lc).map TextLine.text = some ['c'] ∧
      (report_textview_line_get lb).map TextLine.text = some ['b'] ∧
      (report_textview_line_get la).map TextLine.text = some ['a'] ∧
      report_line_draw_data K lc = some dc ∧ dc.r_icon = Icon.ICON_CANCEL ∧
      dc.r_icon_fg = some (Color.theme ThemeColorId.TH_INFO_SELECTED) ∧
      dc.r_icon_bg = some (Color.theme ThemeColorId.TH_INFO_SELECTED_TEXT) ∧
      dc.bg = some (Color.theme ThemeColorId.TH_INFO_SELECTED) ∧
      report_line_draw_data K lb = some db ∧ db.r_icon = Icon.ICON_NONE ∧
      db.bg = some (Color.theme ThemeColorId.TH_BACK) ∧
      report_line_draw_data K la = some da ∧ da.r_icon = Icon.ICON_INFO ∧
      da.r_icon_fg = some (Color.theme ThemeColorId.TH_INFO_INFO_TEXT) ∧
      da.r_icon_bg = some (Color.theme ThemeColorId.TH_INFO_INFO) ∧
      da.bg = some (Color.theme ThemeColorId.TH_BACK) := by
  have hfind : BLI_findlink
      [ ({ type := tI, flag := fU, len := 3, message := ['a', '\n', 'b'] } : Report),
        { type := tE, flag := fS, len := 1, message := ['c'] } ] a1.active_report_index
      ≠ some 1 := by
    simp only [BLI_findlink]
    split
    · simp only [ne_eq, Option.some.injEq]; omega
    · simp
  refine ⟨lineCtx a1 [ { type := tI, flag := fU, len := 3, message := ['a', '\n', 'b'] },
      { type := tE, flag := fS, len := 1, message := ['c'] } ] 1 0 (0, 1),
    lineCtx a1 [ { type := tI, flag := fU, len := 3, message := ['a', '\n', 'b'] },
      { type := tE, flag := fS, len := 1, message := ['c'] } ] 0 1 (2, 3),
    lineCtx a1 [ { type := tI, flag := fU, len := 3, message := ['a', '\n', 'b'] },
      { type := tE, flag := fS, len := 1, message := ['c'] } ] 0 1 (0, 1),
    { lineCtx a1 [ { type := tI, flag := fU, len := 3, message := ['a', '\n', 'b'] },
      { type := tE, flag := fS, len := 1, message := ['c'] } ] 0 1 (0, 1) with iter := none },
    { flags := (if fS &&& K.RPT_PYTHON != 0 then [LineFlag.TVC_LINE_FG_COMPLEX]
          else [LineFlag.TVC_LINE_FG_SIMPLE]) ++
        [LineFlag.TVC_LINE_BG, LineFlag.TVC_LINE_ICON, LineFlag.TVC_LINE_ICON_FG,
          LineFlag.TVC_LINE_ICON_BG],
      py_formatted := fS &&& K.RPT_PYTHON != 0,
      fg := if fS &&& K.RPT_PYTHON != 0 then none
        else some (Color.theme ThemeColorId.TH_INFO_SELECTED_TEXT),
      bg := some (Color.theme ThemeColorId.TH_INFO_SELECTED),
      r_icon := Icon.ICON_CANCEL,
      r_icon_fg := some (Color.theme ThemeColorId.TH_INFO_SELECTED),
      r_icon_bg := some (Color.theme ThemeColorId.TH_INFO_SELECTED_TEXT) },
    { flags := (if fU &&& K.RPT_PYTHON != 0 then [LineFlag.TVC_LINE_FG_COMPLEX]
          else [LineFlag.TVC_LINE_FG_SIMPLE]) ++ [LineFlag.TVC_LINE_BG],
      py_formatted := fU &&& K.RPT_PYTHON != 0,
      fg := if fU &&& K.RPT_PYTHON != 0 then none
        else some (Color.theme ThemeColorId.TH_TEXT),
      bg := some (Color.theme ThemeColorId.TH_BACK),
      r_icon := Icon.ICON_NONE, r_icon_fg := none, r_icon_bg := none },
    { flags := (if fU &&& K.RPT_PYTHON != 0 then [LineFlag.TVC_LINE_FG_COMPLEX]
          else [LineFlag.TVC_LINE_FG_SIMPLE]) ++
        [LineFlag.TVC_LINE_BG, LineFlag.TVC_LINE_ICON, LineFlag.TVC_LINE_ICON_FG,
          LineFlag.TVC_LINE_ICON_BG],
      py_formatted := fU &&& K.RPT_PYTHON != 0,
      fg := if fU &&& K.RPT_PYTHON != 0 then none
        else some (Color.theme ThemeColorId.TH_TEXT),
      bg := some (Color.theme ThemeColorId.TH_BACK),
      r_icon := Icon.ICON_INFO,
      r_icon_fg := some (Color.theme ThemeColorId.TH_INFO_INFO_TEXT),
      r_icon_bg := some (Color.theme ThemeColorId.TH_INFO_INFO) },
    rfl, rfl, rfl, rfl, rfl, rfl, rfl, rfl, ?_, rfl, rfl, rfl, rfl, ?_, rfl, rfl, ?_, rfl, rfl,
    rfl, rfl⟩
  · simp only [report_line_draw_data, lineCtx, deref]
    simp [hE, hS, hfind.symm]
  · simp only [report_line_draw_data, lineCtx, deref]
    simp [hU, Int.tmod]
  · simp only [report_line_draw_data, lineCtx, deref]
    simp [hU, hI1, hI2, hI3, Int.tmod]

/-- The scenario with the masks of `sampleDefs`. -/
theorem scenario_two_reports_witness :
    2 &&& sampleDefs.RPT_ERROR_ALL = 0 ∧ 2 &&& sampleDefs.RPT_WARNING_ALL = 0 ∧
    2 &&& sampleDefs.RPT_INFO_ALL ≠ 0 ∧ 32 &&& sampleDefs.RPT_ERROR_ALL ≠ 0 ∧
    0 &&& sampleDefs.RPT_SELECT = 0 ∧ 1 &&& sampleDefs.RPT_SELECT ≠ 0 ∧
    (⟨0⟩ : SpaceInfo).active_report_index ≠ 1 ∧
    ∃ (lc lb la s' : TextViewContext) (dc db da : LineDrawData),
      traversal showAll (tvc_init ⟨0⟩
        [ { type := 2, flag := 0, len := 3, message := ['a', '\n', 'b'] },
          { type := 32, flag := 1, len := 1, message := ['c'] } ]) = some [lc, lb, la] ∧
      report_textview_step showAll la = some (s', false) ∧
      exposed lc = (some 1, 0, 1, 0) ∧ exposed lb = (some 0, 2, 3, 1) ∧
      exposed la = (some 0, 0, 1, 1) ∧
      (report_textview_line_get lc).map TextLine.text = some ['c'] ∧
      (report_textview_line_get lb).map TextLine.text = some ['b'] ∧
      (report_textview_line_get la).map TextLine.text = some ['a'] ∧
      report_line_draw_data sampleDefs lc = some dc ∧ dc.r_icon = Icon.ICON_CANCEL ∧
      dc.r_icon_fg = some (Color.theme ThemeColorId.TH_INFO_SELECTED) ∧
      dc.r_icon_bg = some (Color.theme ThemeColorId.TH_INFO_SELECTED_TEXT) ∧
      dc.bg = some (Color.theme ThemeColorId.TH_INFO_SELECTED) ∧
      report_line_draw_data sampleDefs lb = some db ∧ db.r_icon = Icon.ICON_NONE ∧
      db.bg = some (Color.theme ThemeColorId.TH_BACK) ∧
      report_line_draw_data sampleDefs la = some da ∧ da.r_icon = Icon.ICON_INFO ∧
      da.r_icon_fg = some (Color.theme ThemeColorId.TH_INFO_INFO_TEXT) ∧
      da.r_icon_bg = some (Color.theme ThemeColorId.TH_INFO_INFO) ∧
      da.bg = some (Color.theme ThemeColorId.TH_BACK) :=
  ⟨by decide, by decide, by decide, by decide, by decide, by decide, by decide,
    scenario_two_reports sampleDefs ⟨0⟩ 2 32 0 1 (by decide) (by decide) (by decide) (by decide)
      (by decide) (by decide) (by decide)⟩

/-! ## Invariants of the traversal -/

/-- C6: in every state of a traversal `iter_tmp` is the number of visible
reports that lie after the current report in the list; a step that keeps the
cursor keeps `iter_tmp`, and a step that moves the cursor adds exactly 1. -/
theorem visited_counter (vis : Report → Bool) (tvc0 s : TextViewContext)
    (h : Reached vis tvc0 s) :
    (∃ i, s.iter = some i ∧ s.iter_tmp = ((tvc0.arg2.drop (i + 1)).countP vis : Nat)) ∧
    ∀ s', report_textview_step vis s = some (s', true) →
      (s'.iter = s.iter → s'.iter_tmp = s.iter_tmp) ∧
      (s'.iter ≠ s.iter → s'.iter_tmp = s.iter_tmp + 1) := by
  obtain ⟨_, h2, _, _, i, r, hi, hr, _, ht, _, _, _⟩ := reached_inv vis tvc0 s h
  refine ⟨⟨i, hi, ht⟩, ?_⟩
  intro s' hstep
  have hlt := getElem?_some_lt _ i r hr
  by_cases hpos : 0 < s.iter_char_begin
  · have hd : deref s.arg2 s.iter = some r := by rw [h2, hi]; exact hr
    rw [step_inside vis s r hpos hd] at hstep
    simp only [Option.some.injEq, Prod.mk.injEq, and_true] at hstep
    subst hstep
    exact ⟨fun _ => rfl, fun hne => absurd rfl hne⟩
  · rw [step_leave vis s i (by omega) hi (by rw [h2]; exact hlt)] at hstep
    rw [h2] at hstep
    cases hp : prevVisible vis tvc0.arg2 i with
    | none => simp [hp] at hstep
    | some j =>
      obtain ⟨hji, r', hr', _⟩ := prevVisible_some vis tvc0.arg2 i j hp
      simp only [hp, hr', Option.some.injEq, Prod.mk.injEq, and_true] at hstep
      subst hstep
      refine ⟨fun heq => ?_, fun _ => rfl⟩
      simp only [hi, Option.some.injEq] at heq
      omega

/-- The counter in the state after the first step on the sample list, where
the cursor has moved from the report `c` to the report `a\nb`. -/
theorem visited_counter_witness :
    Reached showAll (tvc_init ⟨0⟩ sampleReports)
      (lineCtx ⟨0⟩ sampleReports 0 1 (2, 3)) ∧
    ((∃ i, (lineCtx ⟨0⟩ sampleReports 0 1 (2, 3)).iter = some i ∧
        (lineCtx ⟨0⟩ sampleReports 0 1 (2, 3)).iter_tmp =
          (((tvc_init ⟨0⟩ sampleReports).arg2.drop (i + 1)).countP showAll : Nat)) ∧
      ∀ s', report_textview_step showAll (lineCtx ⟨0⟩ sampleReports 0 1 (2, 3)) =
          some (s', true) →
        (s'.iter = (lineCtx ⟨0⟩ sampleReports 0 1 (2, 3)).iter →
          s'.iter_tmp = (lineCtx ⟨0⟩ sampleReports 0 1 (2, 3)).iter_tmp) ∧
        (s'.iter ≠ (lineCtx ⟨0⟩ sampleReports 0 1 (2, 3)).iter →
          s'.iter_tmp = (lineCtx ⟨0⟩ sampleReports 0 1 (2, 3)).iter_tmp + 1)) :=
  ⟨Reached.next (lineCtx ⟨0⟩ sampleReports 1 0 (0, 1)) _
      (Reached.start _ (by decide)) (by decide),
    visited_counter showAll (tvc_init ⟨0⟩ sampleReports) (lineCtx ⟨0⟩ sampleReports 0 1 (2, 3))
      (Reached.next (lineCtx ⟨0⟩ sampleReports 1 0 (0, 1)) _
        (Reached.start _ (by decide)) (by decide))⟩

/-- C7: when every report of the list has `len >= 0`, in every state of a
traversal `0 <= iter_char_begin <= iter_char_end <= len` of the current
report, so the span length that `report_textview_line_get` computes is not
negative and the span ends inside the message. -/
theorem offset_invariant (vis : Report → Bool) (tvc0 s : TextViewContext)
    (hlen : ∀ r ∈ tvc0.arg2, 0 ≤ r.len) (h : Reached vis tvc0 s) :
    ∃ r l, deref s.arg2 s.iter = some r ∧
      0 ≤ s.iter_char_begin ∧ s.iter_char_begin ≤ s.iter_char_end ∧
      s.iter_char_end ≤ r.len ∧
      report_textview_line_get s = some l ∧
      l.len = s.iter_char_end - s.iter_char_begin ∧ 0 ≤ l.len ∧
      s.iter_char_begin + l.len ≤ r.len := by
  obtain ⟨_, h2, _, _, i, r, hi, hr, _, _, hb, he, h0⟩ := reached_inv vis tvc0 s h
  have hd : deref s.arg2 s.iter = some r := by rw [h2, hi]; exact hr
  have hr0 : 0 ≤ r.len := hlen r (List.getElem?_mem hr)
  have hle := scanLoop_le (str_at r.message) s.iter_char_end.toNat
  have hend : 0 ≤ s.iter_char_end := by
    rcases h0 with h0 | h0
    · rw [h0]; exact hr0
    · exact h0
  refine ⟨r, ⟨r.message.drop s.iter_char_begin.toNat, s.iter_char_end - s.iter_char_begin⟩,
    hd, ?_, ?_, he, ?_, rfl, ?_, ?_⟩
  · omega
  · omega
  · simp [report_textview_line_get, hd]
  · simp only []; omega
  · simp only []; omega

/-- The offsets in the state after the first step on the sample list. -/
theorem offset_invariant_witness :
    (∀ r ∈ (tvc_init ⟨0⟩ sampleReports).arg2, 0 ≤ r.len) ∧
    Reached showAll (tvc_init ⟨0⟩ sampleReports) (lineCtx ⟨0⟩ sampleReports 0 1 (2, 3)) ∧
    ∃ r l, deref (lineCtx ⟨0⟩ sampleReports 0 1 (2, 3)).arg2
        (lineCtx ⟨0⟩ sampleReports 0 1 (2, 3)).iter = some r ∧
      0 ≤ (lineCtx ⟨0⟩ sampleReports 0 1 (2, 3)).iter_char_begin ∧
      (lineCtx ⟨0⟩ sampleReports 0 1 (2, 3)).iter_char_begin ≤
        (lineCtx ⟨0⟩ sampleReports 0 1 (2, 3)).iter_char_end ∧
      (lineCtx ⟨0⟩ sampleReports 0 1 (2, 3)).iter_char_end ≤ r.len ∧
      report_textview_line_get (lineCtx ⟨0⟩ sampleReports 0 1 (2, 3)) = some l ∧
      l.len = (lineCtx ⟨0⟩ sampleReports 0 1 (2, 3)).iter_char_end -
        (lineCtx ⟨0⟩ sampleReports 0 1 (2, 3)).iter_char_begin ∧
      0 ≤ l.len ∧
      (lineCtx ⟨0⟩ sampleReports 0 1 (2, 3)).iter_char_begin + l.len ≤ r.len :=
  ⟨by decide,
    Reached.next (lineCtx ⟨0⟩ sampleReports 1 0 (0, 1)) _
      (Reached.start _ (by decide)) (by decide),
    offset_invariant showAll (tvc_init ⟨0⟩ sampleReports) (lineCtx ⟨0⟩ sampleReports 0 1 (2, 3))
      (by decide)
      (Reached.next (lineCtx ⟨0⟩ sampleReports 1 0 (0, 1)) _
        (Reached.start _ (by decide)) (by decide))⟩

/-! ## The outcome of `begin` -/

/-- C8: `report_textview_begin` never faults; it returns false exactly when
the list holds no visible report; when it returns true the cursor is on the
last visible report of the list, `iter_tmp`, `sel_start` and `sel_end` are 0,
`iter_char_end` is the report's `len`, and `iter_char_begin` is the start of
its last line: it is 0 or follows a newline, and no newline stands between it
and `len`. -/
theorem begin_outcome (vis : Report → Bool) (tvc : TextViewContext) :
    ((∃ s, report_textview_begin vis tvc = some (s, false)) ↔
      ∀ r ∈ tvc.arg2, vis r = false) ∧
    match report_textview_begin vis tvc with
    | none => False
    | some (s, false) => s.iter = none
    | some (s, true) =>
      ∃ i r, s.iter = some i ∧ tvc.arg2[i]? = some r ∧ vis r = true ∧
        (∀ j r', i < j → tvc.arg2[j]? = some r' → vis r' = false) ∧
        s.iter_tmp = 0 ∧ s.sel_start = 0 ∧ s.sel_end = 0 ∧
        s.iter_char_end = r.len ∧
        0 ≤ s.iter_char_begin ∧
        (s.iter_char_begin = 0 ∨
          str_at r.message (s.iter_char_begin.toNat - 1) = '\n') ∧
        ∀ j : Nat, s.iter_char_begin ≤ j → (j : Int) < r.len →
          str_at r.message j ≠ '\n' := by
  rw [begin_eq]
  cases hp : prevVisible vis tvc.arg2 tvc.arg2.length with
  | none =>
    have hnone := prevVisible_none vis tvc.arg2 _ hp
    refine ⟨⟨fun _ r hr => ?_, fun _ => ⟨_, rfl⟩⟩, rfl⟩
    obtain ⟨k, hk, hkr⟩ := List.getElem_of_mem hr
    exact hnone k r hk (by rw [List.getElem?_eq_getElem hk, hkr])
  | some j =>
    obtain ⟨hj, r, hr, hv⟩ := prevVisible_some vis tvc.arg2 _ j hp
    have hlater := prevVisible_later vis tvc.arg2 _ j hp
    simp only [hr]
    refine ⟨⟨fun h => ?_, fun h => ?_⟩, j, r, rfl, hr, hv, ?_, rfl, rfl, rfl, rfl, ?_, ?_, ?_⟩
    · obtain ⟨s, hs⟩ := h
      simp at hs
    · have := h r (List.getElem?_mem hr)
      rw [hv] at this
      exact absurd this (by simp)
    · intro k r' hjk hr'
      exact hlater k r' hjk (getElem?_some_lt _ k r' hr') hr'
    · simp [lineCtx]
    · simp only [lineCtx]
      by_cases h0 : scanLoop (str_at r.message) r.len.toNat = 0
      · left; simp [h0]
      · right
        simpa using scanLoop_prev_newline (str_at r.message) r.len.toNat h0
    · intro k hk1 hk2
      simp only [lineCtx] at hk1
      exact scanLoop_no_newline (str_at r.message) r.len.toNat k (by omega) (by omega)

/-! ## The empty message -/

/-- C9: a visible report with the empty message and `len` 0 gets exactly one
display line, with both offsets 0 and an empty text; the scan that sets
`iter_char_begin` returns 0 whatever the characters are (it reads none); and
the next step leaves the report. -/
theorem empty_message_one_line (vis : Report → Bool) (tvc : TextViewContext) (i : Nat) (R : Report)
    (hi : tvc.arg2[i]? = some R) (hv : vis R = true) (hmsg : R.message = [])
    (hlen : R.len = 0) :
    ∃ (trace : List TextViewContext) (s : TextViewContext) (l : TextLine),
      traversal vis tvc = some trace ∧
      trace.filter (fun s => decide (s.iter = some i)) = [s] ∧
      s.iter_char_begin = 0 ∧ s.iter_char_end = 0 ∧
      report_textview_line_get s = some l ∧ l.line = [] ∧ l.len = 0 ∧ l.text = [] ∧
      (∀ str : Nat → Char, scanLoop str s.iter_char_end.toNat = 0) ∧
      ∃ s' b, report_textview_step vis s = some (s', b) ∧
        (s'.iter = none ∨ ∃ j, s'.iter = some j ∧ j < i) := by
  have hf := expected_filter vis tvc.arg1 tvc.arg2 i R hi hv
  rw [reportSpans_zero R hlen] at hf
  simp only [List.map_cons, List.map_nil] at hf
  obtain ⟨s', b, h1, h2⟩ := step_lineCtx_leave vis tvc.arg1 tvc.arg2 i
    ((tvc.arg2.drop (i + 1)).countP vis : Nat) (0, 0) R hi le_rfl
  refine ⟨_, _, ⟨[], 0⟩, traversal_eq vis tvc, hf, rfl, rfl, ?_, rfl, rfl, rfl, ?_, s', b, h1, ?_⟩
  · rw [line_get_lineCtx _ _ _ _ _ R hi, hmsg]
    simp
  · intro str
    simp [lineCtx, scanLoop]
  · rcases h2 with ⟨_, h2⟩ | ⟨_, j, h2, h3, _⟩
    · exact Or.inl h2
    · exact Or.inr ⟨j, h2, h3⟩

/-- The empty message as the second of three reports. -/
theorem empty_message_one_line_witness :
    ([ { type := 2, flag := 0, len := 1, message := ['x'] },
       { type := 2, flag := 0, len := 0, message := [] },
       { type := 2, flag := 0, len := 1, message := ['y'] } ] : List Report)[1]? =
      some { type := 2, flag := 0, len := 0, message := [] } ∧
    showAll { type := 2, flag := 0, len := 0, message := [] } = true ∧
    ∃ (trace : List TextViewContext) (s : TextViewContext) (l : TextLine),
      traversal showAll (tvc_init ⟨0⟩
        [ { type := 2, flag := 0, len := 1, message := ['x'] },
          { type := 2, flag := 0, len := 0, message := [] },
          { type := 2, flag := 0, len := 1, message := ['y'] } ]) = some trace ∧
      trace.filter (fun s => decide (s.iter = some 1)) = [s] ∧
      s.iter_char_begin = 0 ∧ s.iter_char_end = 0 ∧
      report_textview_line_get s = some l ∧ l.line = [] ∧ l.len = 0 ∧ l.text = [] ∧
      (∀ str : Nat → Char, scanLoop str s.iter_char_end.toNat = 0) ∧
      ∃ s' b, report_textview_step showAll s = some (s', b) ∧
        (s'.iter = none ∨ ∃ j, s'.iter = some j ∧ j < 1) :=
  ⟨by decide, by decide,
    empty_message_one_line showAll (tvc_init ⟨0⟩
        [ { type := 2, flag := 0, len := 1, message := ['x'] },
          { type := 2, flag := 0, len := 0, message := [] },
          { type := 2, flag := 0, len := 1, message := ['y'] } ]) 1
      { type := 2, flag := 0, len := 0, message := [] } (by decide) (by decide) rfl rfl⟩

/-! ## One traversal for the three goals -/

/-- C10: the sequence of (cursor, `iter_char_begin`, `iter_char_end`,
`iter_tmp`) that a traversal exposes is determined by the report list and the
filter: it is the same for the pick, height and draw entry points, whatever
`mval` is, and the same from any context over the list, whatever its fields
held before `begin`. -/
theorem cross_goal_consistency (vis : Report → Bool) (sinfo a1 : SpaceInfo) (reports : List Report)
    (mval_y ss se : Int) (it : Option Nat) (b e t : Int) :
    info_text_pick vis sinfo reports mval_y = info_textview_height vis sinfo reports ∧
    info_textview_height vis sinfo reports = info_textview_main vis sinfo reports ∧
    (traversal vis (TextViewContext.mk a1 reports ss se it b e t)).map (List.map exposed) =
      info_textview_main vis sinfo reports := by
  refine ⟨rfl, rfl, ?_⟩
  simp only [info_textview_main, info_textview_main__internal, traversal_eq, Option.map_some',
    tvc_init]
  rw [expected_exposed vis a1 sinfo]

/-! ## Lemmas on the line attributes -/

theorem tmod_two_eq_zero_iff (t : Int) : Int.tmod t 2 = 0 ↔ t % 2 = 0 :=
  ⟨fun h => Int.emod_eq_zero_of_dvd (Int.dvd_of_tmod_eq_zero h),
    fun h => Int.tmod_eq_zero_of_dvd (Int.dvd_of_emod_eq_zero h)⟩

theorem specFirstCategory_eq (K : ReportDefs) (type : Nat) :
    specFirstCategory K type =
      if type &&& K.RPT_ERROR_ALL ≠ 0 then some Category.error
      else if type &&& K.RPT_WARNING_ALL ≠ 0 then some Category.warning
      else if type &&& K.RPT_INFO_ALL ≠ 0 then some Category.info
      else if type &&& K.RPT_PROPERTY ≠ 0 then some Category.property
      else if type &&& K.RPT_OPERATOR ≠ 0 then some Category.operator
      else none := by
  simp only [specFirstCategory, categoryPriority, List.find?, Category.mask]
  repeat' split
  all_goals simp_all

/-- Every output of `report_line_draw_data` in closed form, for a cursor that
points at a report. -/
theorem draw_attrs (K : ReportDefs) (s : TextViewContext) (r : Report)
    (hr : deref s.arg2 s.iter = some r) :
    ∃ d, report_line_draw_data K s = some d ∧
      d.py_formatted = isPython K r ∧
      d.fg = (if isPython K r then none
        else some (Color.theme (if isSelected K r then ThemeColorId.TH_INFO_SELECTED_TEXT
          else ThemeColorId.TH_TEXT))) ∧
      d.bg = some (specBackground (isSelected K r) (isActive s) s.iter_tmp) ∧
      d.r_icon = (if s.iter_char_begin = 0 then specIcon K r.type else Icon.ICON_NONE) ∧
      d.flags = (if isPython K r then [LineFlag.TVC_LINE_FG_COMPLEX]
          else [LineFlag.TVC_LINE_FG_SIMPLE]) ++
        (if d.r_icon = Icon.ICON_NONE then [LineFlag.TVC_LINE_BG]
          else [LineFlag.TVC_LINE_BG, LineFlag.TVC_LINE_ICON, LineFlag.TVC_LINE_ICON_FG,
            LineFlag.TVC_LINE_ICON_BG]) ∧
      d.r_icon_fg = (if s.iter_char_begin = 0 then
        (specFirstCategory K r.type).map (fun c =>
          Color.theme (if isSelected K r then ThemeColorId.TH_INFO_SELECTED else c.iconFg))
        else none) ∧
      d.r_icon_bg = (if s.iter_char_begin = 0 then
        (specFirstCategory K r.type).map (fun c =>
          Color.theme (if isSelected K r then ThemeColorId.TH_INFO_SELECTED_TEXT
            else c.iconBg))
        else none) := by
  have hpar : (s.iter_tmp % 2 = 1) ↔ ¬ Int.tmod s.iter_tmp 2 = 0 := by
    rw [tmod_two_eq_zero_iff]
    have := Int.emod_two_eq_zero_or_one s.iter_tmp
    omega
  simp only [report_line_draw_data, hr, specIcon, specFirstCategory_eq, isSelected, isPython,
    specBackground, isActive, hpar]
  by_cases hb : s.iter_char_begin = 0
  · by_cases ha : s.iter = BLI_findlink s.arg2 s.arg1.active_report_index <;>
    by_cases hp : r.flag &&& K.RPT_PYTHON = 0 <;>
    by_cases hs : r.flag &&& K.RPT_SELECT = 0 <;>
    (by_cases h1 : r.type &&& K.RPT_ERROR_ALL = 0
     · by_cases h2 : r.type &&& K.RPT_WARNING_ALL = 0
       · by_cases h3 : r.type &&& K.RPT_INFO_ALL = 0
         · by_cases h4 : r.type &&& K.RPT_PROPERTY = 0
           · by_cases h5 : r.type &&& K.RPT_OPERATOR = 0
             · simp [ha, hb, hp, hs, h1, h2, h3, h4, h5]
             · simp [ha, hb, hp, hs, h1, h2, h3, h4, h5, Category.icon, Category.iconFg,
                 Category.iconBg]
           · simp [ha, hb, hp, hs, h1, h2, h3, h4, Category.icon, Category.iconFg,
               Category.iconBg]
         · simp [ha, hb, hp, hs, h1, h2, h3, Category.icon, Category.iconFg, Category.iconBg]
       · simp [ha, hb, hp, hs, h1, h2, Category.icon, Category.iconFg, Category.iconBg]
     · simp [ha, hb, hp, hs, h1, Category.icon, Category.iconFg, Category.iconBg])
  · by_cases ha : s.iter = BLI_findlink s.arg2 s.arg1.active_report_index <;>
    by_cases hp : r.flag &&& K.RPT_PYTHON = 0 <;>
    by_cases hs : r.flag &&& K.RPT_SELECT = 0 <;>
    simp [ha, hb, hp, hs]

theorem icon_select_eq (K : ReportDefs) (b : Int) (type : Nat) :
    icon_select K b type =
      if b = 0 then
        (specIcon K type, (specFirstCategory K type).map Category.iconFg,
          (specFirstCategory K type).map Category.iconBg)
      else (Icon.ICON_NONE, none, none) := by
  simp only [icon_select, specIcon, specFirstCategory_eq]
  by_cases hb : b = 0
  · by_cases h1 : type &&& K.RPT_ERROR_ALL = 0
    · by_cases h2 : type &&& K.RPT_WARNING_ALL = 0
      · by_cases h3 : type &&& K.RPT_INFO_ALL = 0
        · by_cases h4 : type &&& K.RPT_PROPERTY = 0
          · by_cases h5 : type &&& K.RPT_OPERATOR = 0
            · simp [hb, h1, h2, h3, h4, h5]
            · simp [hb, h1, h2, h3, h4, h5, Category.icon, Category.iconFg, Category.iconBg]
          · simp [hb, h1, h2, h3, h4, Category.icon, Category.iconFg, Category.iconBg]
        · simp [hb, h1, h2, h3, Category.icon, Category.iconFg, Category.iconBg]
      · simp [hb, h1, h2, Category.icon, Category.iconFg, Category.iconBg]
    · simp [hb, h1, Category.icon, Category.iconFg, Category.iconBg]
  · simp [hb]

/-- The icon outputs of `report_line_draw_data` are those of its if-chain,
followed by the override of the two slots for a selected report. -/
theorem draw_icon_select (K : ReportDefs) (s : TextViewContext) (r : Report)
    (hr : deref s.arg2 s.iter = some r) :
    ∃ d, report_line_draw_data K s = some d ∧
      d.r_icon = (icon_select K s.iter_char_begin r.type).1 ∧
      d.r_icon_fg = (if d.r_icon = Icon.ICON_NONE then none
        else (if isSelected K r then some ThemeColorId.TH_INFO_SELECTED
          else (icon_select K s.iter_char_begin r.type).2.1).map Color.theme) ∧
      d.r_icon_bg = (if d.r_icon = Icon.ICON_NONE then none
        else (if isSelected K r then some ThemeColorId.TH_INFO_SELECTED_TEXT
          else (icon_select K s.iter_char_begin r.type).2.2).map Color.theme) := by
  obtain ⟨d, hd, _, _, _, hicon, _, hfg, hbg⟩ := draw_attrs K s r hr
  refine ⟨d, hd, ?_, ?_, ?_⟩
  · rw [hicon, icon_select_eq]; split <;> rfl
  · rw [hfg, hicon, icon_select_eq]
    by_cases hb : s.iter_char_begin = 0
    · simp only [hb, if_true, specIcon]
      cases specFirstCategory K r.type with
      | none => simp
      | some c => cases c <;> cases isSelected K r <;> simp [Category.icon]
    · simp [hb]
  · rw [hbg, hicon, icon_select_eq]
    by_cases hb : s.iter_char_begin = 0
    · simp only [hb, if_true, specIcon]
      cases specFirstCategory K r.type with
      | none => simp
      | some c => cases c <;> cases isSelected K r <;> simp [Category.icon]
    · simp [hb]

/-! ## The line attributes -/

/-- C11: on a line that may show an icon (`iter_char_begin = 0`) the if-chain
leaves the icon and the two colour slots of the first category of the report
type in the order error, warning, info, property, operator, and `ICON_NONE`
with no slot for a type with none of them; `r_icon` is that icon, and for a
report that is not selected the icon colours written are those two slots. -/
theorem icon_priority (K : ReportDefs) (s : TextViewContext) (r : Report)
    (hr : deref s.arg2 s.iter = some r) (hb : s.iter_char_begin = 0) :
    icon_select K s.iter_char_begin r.type =
      (specIcon K r.type, (specFirstCategory K r.type).map Category.iconFg,
        (specFirstCategory K r.type).map Category.iconBg) ∧
    ∃ d, report_line_draw_data K s = some d ∧
      d.r_icon = (icon_select K s.iter_char_begin r.type).1 ∧
      d.r_icon = specIcon K r.type ∧
      (specFirstCategory K r.type = none → d.r_icon = Icon.ICON_NONE) ∧
      (∀ c, specFirstCategory K r.type = some c → d.r_icon = c.icon) ∧
      (isSelected K r = false →
        d.r_icon_fg = (specFirstCategory K r.type).map (fun c => Color.theme c.iconFg) ∧
        d.r_icon_bg = (specFirstCategory K r.type).map (fun c => Color.theme c.iconBg)) := by
  have hsel := icon_select_eq K s.iter_char_begin r.type
  rw [if_pos hb] at hsel
  obtain ⟨d, hd, _, _, _, hicon, _, hfg, hbg⟩ := draw_attrs K s r hr
  rw [if_pos hb] at hicon hfg hbg
  refine ⟨hsel, d, hd, ?_, hicon, ?_, ?_, ?_⟩
  · rw [hicon, hsel]
  · intro hn; rw [hicon, specIcon, hn]
  · intro c hc; rw [hicon, specIcon, hc]
  · intro hs
    rw [hfg, hbg, hs]
    simp

/-- The icon priority on the head line of the selected error report of the
sample list, whose type has the error category. -/
theorem icon_priority_witness :
    deref (lineCtx ⟨0⟩ sampleReports 1 0 (0, 1)).arg2 (lineCtx ⟨0⟩ sampleReports 1 0 (0, 1)).iter =
      some { type := 32, flag := 1, len := 1, message := ['c'] } ∧
    (lineCtx ⟨0⟩ sampleReports 1 0 (0, 1)).iter_char_begin = 0 ∧
    icon_select sampleDefs 0 32 =
      (Icon.ICON_CANCEL, some ThemeColorId.TH_INFO_ERROR_TEXT, some ThemeColorId.TH_INFO_ERROR) ∧
    ∃ d, report_line_draw_data sampleDefs (lineCtx ⟨0⟩ sampleReports 1 0 (0, 1)) = some d ∧
      d.r_icon = Icon.ICON_CANCEL := by
  obtain ⟨h1, d, h2, _, h3, _⟩ := icon_priority sampleDefs (lineCtx ⟨0⟩ sampleReports 1 0 (0, 1))
    { type := 32, flag := 1, len := 1, message := ['c'] } (by decide) (by decide)
  exact ⟨by decide, by decide, by decide, d, h2, by rw [h3]; decide⟩

/-- C12: the background of a line is the active background for a selected
report that is the one at `active_report_index`, the selected background for
any other selected report, and for a report that is not selected plain
`TH_BACK` when `iter_tmp` is odd and the blend of `TH_BACK` with
`TH_ROW_ALTERNATE` when it is even; two lines that agree on these three
inputs get the same background, whatever their offsets and report types. -/
theorem background_rule (K : ReportDefs) (s : TextViewContext) (r : Report)
    (hr : deref s.arg2 s.iter = some r) :
    ∃ d, report_line_draw_data K s = some d ∧
      d.bg = some (specBackground (isSelected K r) (isActive s) s.iter_tmp) ∧
      (isSelected K r = true → isActive s = true →
        d.bg = some (Color.theme ThemeColorId.TH_INFO_ACTIVE)) ∧
      (isSelected K r = true → isActive s = false →
        d.bg = some (Color.theme ThemeColorId.TH_INFO_SELECTED)) ∧
      (isSelected K r = false → s.iter_tmp % 2 = 1 →
        d.bg = some (Color.theme ThemeColorId.TH_BACK)) ∧
      (isSelected K r = false → s.iter_tmp % 2 = 0 →
        d.bg = some (Color.blend ThemeColorId.TH_BACK ThemeColorId.TH_ROW_ALTERNATE
          ThemeColorId.TH_ROW_ALTERNATE)) ∧
      ∀ s' r', deref s'.arg2 s'.iter = some r' → isSelected K r' = isSelected K r →
        isActive s' = isActive s → s'.iter_tmp % 2 = s.iter_tmp % 2 →
        ∃ d', report_line_draw_data K s' = some d' ∧ d'.bg = d.bg := by
  obtain ⟨d, hd, _, _, hbg, _⟩ := draw_attrs K s r hr
  refine ⟨d, hd, hbg, ?_, ?_, ?_, ?_, ?_⟩
  · intro h1 h2; rw [hbg, h1, h2]; rfl
  · intro h1 h2; rw [hbg, h1, h2]; rfl
  · intro h1 h2; rw [hbg, h1]; simp [specBackground, h2]
  · intro h1 h2; rw [hbg, h1]; simp [specBackground, h2]
  · intro s' r' hr' h1 h2 h3
    obtain ⟨d', hd', _, _, hbg', _⟩ := draw_attrs K s' r' hr'
    refine ⟨d', hd', ?_⟩
    rw [hbg, hbg', h1, h2]
    simp only [specBackground, h3]

/-- The background rule on the line of the selected error report of the
sample list. -/
theorem background_rule_witness :
    deref (lineCtx ⟨0⟩ sampleReports 1 0 (0, 1)).arg2 (lineCtx ⟨0⟩ sampleReports 1 0 (0, 1)).iter =
      some { type := 32, flag := 1, len := 1, message := ['c'] } ∧
    ∃ d, report_line_draw_data sampleDefs (lineCtx ⟨0⟩ sampleReports 1 0 (0, 1)) = some d ∧
      d.bg = some (specBackground
        (isSelected sampleDefs { type := 32, flag := 1, len := 1, message := ['c'] })
        (isActive (lineCtx ⟨0⟩ sampleReports 1 0 (0, 1)))
        (lineCtx ⟨0⟩ sampleReports 1 0 (0, 1)).iter_tmp) ∧
      d.bg = some (Color.theme ThemeColorId.TH_INFO_SELECTED) := by
  obtain ⟨d, h1, h2, _, h4, _⟩ := background_rule sampleDefs (lineCtx ⟨0⟩ sampleReports 1 0 (0, 1))
    { type := 32, flag := 1, len := 1, message := ['c'] } (by decide)
  exact ⟨by decide, d, h1, h2, h4 (by decide) (by decide)⟩

/-- C14: for a report with `RPT_PYTHON` the python formatter is run on the
line, the flag word has the complex-foreground bit and not the simple one, and
no flat foreground is written; for any other report the formatter is not run,
the flag word has the simple-foreground bit and not the complex one, and the
foreground written is `TH_INFO_SELECTED_TEXT` for a selected report and
`TH_TEXT` otherwise, the report type playing no part. -/
theorem foreground_rule (K : ReportDefs) (s : TextViewContext) (r : Report)
    (hr : deref s.arg2 s.iter = some r) :
    ∃ d, report_line_draw_data K s = some d ∧
      (isPython K r = true →
        d.py_formatted = true ∧ d.fg = none ∧
        LineFlag.TVC_LINE_FG_COMPLEX ∈ d.flags ∧ LineFlag.TVC_LINE_FG_SIMPLE ∉ d.flags) ∧
      (isPython K r = false →
        d.py_formatted = false ∧
        LineFlag.TVC_LINE_FG_SIMPLE ∈ d.flags ∧ LineFlag.TVC_LINE_FG_COMPLEX ∉ d.flags ∧
        d.fg = some (Color.theme (if isSelected K r then ThemeColorId.TH_INFO_SELECTED_TEXT
          else ThemeColorId.TH_TEXT))) := by
  obtain ⟨d, hd, hpy, hfg, _, _, hflags, _⟩ := draw_attrs K s r hr
  refine ⟨d, hd, ?_, ?_⟩
  · intro hp
    rw [hp] at hpy hfg hflags
    refine ⟨hpy, by simpa using hfg, ?_, ?_⟩
    · rw [hflags]; simp
    · rw [hflags]; by_cases hn : d.r_icon = Icon.ICON_NONE <;> simp [hn]
  · intro hp
    rw [hp] at hpy hfg hflags
    refine ⟨hpy, ?_, ?_, by simpa using hfg⟩
    · rw [hflags]; simp
    · rw [hflags]; by_cases hn : d.r_icon = Icon.ICON_NONE <;> simp [hn]

/-- The foreground rule on the line of the selected error report of the sample
list, which has no `RPT_PYTHON`. -/
theorem foreground_rule_witness :
    deref (lineCtx ⟨0⟩ sampleReports 1 0 (0, 1)).arg2 (lineCtx ⟨0⟩ sampleReports 1 0 (0, 1)).iter =
      some { type := 32, flag := 1, len := 1, message := ['c'] } ∧
    ∃ d, report_line_draw_data sampleDefs (lineCtx ⟨0⟩ sampleReports 1 0 (0, 1)) = some d ∧
      d.py_formatted = false ∧
      LineFlag.TVC_LINE_FG_SIMPLE ∈ d.flags ∧ LineFlag.TVC_LINE_FG_COMPLEX ∉ d.flags ∧
      d.fg = some (Color.theme ThemeColorId.TH_INFO_SELECTED_TEXT) := by
  obtain ⟨d, h1, _, h3⟩ := foreground_rule sampleDefs (lineCtx ⟨0⟩ sampleReports 1 0 (0, 1))
    { type := 32, flag := 1, len := 1, message := ['c'] } (by decide)
  exact ⟨by decide, d, h1, h3 (by decide)⟩

/-- C15: on every line of a selected report that shows an icon, the icon
foreground is `TH_INFO_SELECTED` and the icon background is
`TH_INFO_SELECTED_TEXT`, whatever the category, and the icon itself is the one
the if-chain picked by category. -/
theorem selected_icon_override (K : ReportDefs) (s : TextViewContext) (r : Report)
    (hr : deref s.arg2 s.iter = some r) (hsel : isSelected K r = true) :
    ∃ d, report_line_draw_data K s = some d ∧
      d.r_icon = (icon_select K s.iter_char_begin r.type).1 ∧
      d.r_icon = (if s.iter_char_begin = 0 then specIcon K r.type else Icon.ICON_NONE) ∧
      (d.r_icon ≠ Icon.ICON_NONE →
        d.r_icon_fg = some (Color.theme ThemeColorId.TH_INFO_SELECTED) ∧
        d.r_icon_bg = some (Color.theme ThemeColorId.TH_INFO_SELECTED_TEXT)) := by
  obtain ⟨d, hd, _, _, _, hicon, _, _, _⟩ := draw_attrs K s r hr
  obtain ⟨d', hd', hi', hfg', hbg'⟩ := draw_icon_select K s r hr
  rw [hd] at hd'
  have hdd : d = d' := Option.some.inj hd'
  subst hdd
  refine ⟨d, hd, hi', hicon, ?_⟩
  intro hne
  rw [hfg', hbg']
  simp [hne, hsel]

/-- The override on the head line of the selected error report of the sample
list. -/
theorem selected_icon_override_witness :
    deref (lineCtx ⟨0⟩ sampleReports 1 0 (0, 1)).arg2 (lineCtx ⟨0⟩ sampleReports 1 0 (0, 1)).iter =
      some { type := 32, flag := 1, len := 1, message := ['c'] } ∧
    isSelected sampleDefs { type := 32, flag := 1, len := 1, message := ['c'] } = true ∧
    ∃ d, report_line_draw_data sampleDefs (lineCtx ⟨0⟩ sampleReports 1 0 (0, 1)) = some d ∧
      d.r_icon = Icon.ICON_CANCEL ∧
      d.r_icon_fg = some (Color.theme ThemeColorId.TH_INFO_SELECTED) ∧
      d.r_icon_bg = some (Color.theme ThemeColorId.TH_INFO_SELECTED_TEXT) := by
  obtain ⟨d, h1, _, h3, h4⟩ :=
    selected_icon_override sampleDefs (lineCtx ⟨0⟩ sampleReports 1 0 (0, 1))
      { type := 32, flag := 1, len := 1, message := ['c'] } (by decide) (by decide)
  have hi : d.r_icon = Icon.ICON_CANCEL := by rw [h3]; decide
  exact ⟨by decide, by decide, d, h1, hi, h4 (by rw [hi]; decide)⟩

/-- C20: whatever the type, the flag and `iter_char_begin`, the call reads no
unassigned slot: it returns, and when the icon is not `ICON_NONE` the chain or
the override has assigned both `icon_fg_id` and `icon_bg_id`, whose colours
are written; the flag word has each of the three icon bits exactly when the
icon is not `ICON_NONE`, and it always has `TVC_LINE_BG`. -/
theorem icon_slots_assigned (K : ReportDefs) (s : TextViewContext) (r : Report)
    (hr : deref s.arg2 s.iter = some r) :
    ∃ d, report_line_draw_data K s = some d ∧
      d.r_icon = (icon_select K s.iter_char_begin r.type).1 ∧
      (d.r_icon ≠ Icon.ICON_NONE →
        (if isSelected K r then some ThemeColorId.TH_INFO_SELECTED
          else (icon_select K s.iter_char_begin r.type).2.1).isSome = true ∧
        (if isSelected K r then some ThemeColorId.TH_INFO_SELECTED_TEXT
          else (icon_select K s.iter_char_begin r.type).2.2).isSome = true ∧
        d.r_icon_fg.isSome = true ∧ d.r_icon_bg.isSome = true) ∧
      (LineFlag.TVC_LINE_ICON ∈ d.flags ↔ d.r_icon ≠ Icon.ICON_NONE) ∧
      (LineFlag.TVC_LINE_ICON_FG ∈ d.flags ↔ d.r_icon ≠ Icon.ICON_NONE) ∧
      (LineFlag.TVC_LINE_ICON_BG ∈ d.flags ↔ d.r_icon ≠ Icon.ICON_NONE) ∧
      LineFlag.TVC_LINE_BG ∈ d.flags := by
  obtain ⟨d, hd, _, _, _, hicon, hflags, hfg, hbg⟩ := draw_attrs K s r hr
  have hsel := icon_select_eq K s.iter_char_begin r.type
  have hflag : ∀ f, f ∈ [LineFlag.TVC_LINE_ICON, LineFlag.TVC_LINE_ICON_FG,
      LineFlag.TVC_LINE_ICON_BG] → (f ∈ d.flags ↔ d.r_icon ≠ Icon.ICON_NONE) := by
    intro f hf
    rw [hflags]
    by_cases hn : d.r_icon = Icon.ICON_NONE
    · simp only [hn, if_true, ne_eq, not_true_eq_false, iff_false]
      simp only [List.mem_cons, List.mem_singleton, List.not_mem_nil, or_false] at hf
      rcases hf with hf | hf | hf <;> subst hf <;> cases isPython K r <;> simp
    · simp only [hn, if_false, ne_eq, not_false_eq_true, iff_true]
      simp only [List.mem_cons, List.mem_singleton, List.not_mem_nil, or_false] at hf
      rcases hf with hf | hf | hf <;> subst hf <;> simp
  refine ⟨d, hd, ?_, ?_, hflag _ (by simp), hflag _ (by simp), hflag _ (by simp), ?_⟩
  · rw [hicon, hsel]; split <;> rfl
  · intro hne
    by_cases hb : s.iter_char_begin = 0
    · rw [if_pos hb] at hicon hfg hbg hsel
      rw [hfg, hbg, hsel]
      rw [hicon, specIcon] at hne
      cases hc : specFirstCategory K r.type with
      | none => rw [hc] at hne; exact absurd rfl hne
      | some c => cases isSelected K r <;> simp
    · rw [if_neg hb] at hicon
      exact absurd hicon hne
  · rw [hflags]; by_cases hn : d.r_icon = Icon.ICON_NONE <;> simp [hn]

/-- The slots on the second line of the info report of the sample list, which
does not start at offset 0 and has no icon. -/
theorem icon_slots_assigned_witness :
    deref (lineCtx ⟨0⟩ sampleReports 0 1 (2, 3)).arg2 (lineCtx ⟨0⟩ sampleReports 0 1 (2, 3)).iter =
      some { type := 2, flag := 0, len := 3, message := ['a', '\n', 'b'] } ∧
    ∃ d, report_line_draw_data sampleDefs (lineCtx ⟨0⟩ sampleReports 0 1 (2, 3)) = some d ∧
      d.r_icon = Icon.ICON_NONE ∧ LineFlag.TVC_LINE_ICON ∉ d.flags ∧
      LineFlag.TVC_LINE_BG ∈ d.flags := by
  obtain ⟨d, h1, h2, _, h4, _, _, h7⟩ :=
    icon_slots_assigned sampleDefs (lineCtx ⟨0⟩ sampleReports 0 1 (2, 3))
      { type := 2, flag := 0, len := 3, message := ['a', '\n', 'b'] } (by decide)
  have hi : d.r_icon = Icon.ICON_NONE := by rw [h2]; decide
  exact ⟨by decide, d, h1, hi, fun h => (h4.mp h) hi, h7⟩

/-! ## Lemmas on the counter along the trace -/

/-- A line of the trace is a line of a visible report, with the counter that
counts the visible reports after it. -/
theorem trace_mem (vis : Report → Bool) (a1 : SpaceInfo) (rs : List Report)
    (s : TextViewContext) (hs : s ∈ expected vis a1 rs rs.length 0) :
    ∃ i r p, rs[i]? = some r ∧ vis r = true ∧ p ∈ reportSpans r ∧
      s = lineCtx a1 rs i ((rs.drop (i + 1)).countP vis : Nat) p := by
  obtain ⟨i, r, hi, hr, hv⟩ := expected_visible vis a1 rs rs.length 0 s hs
  have hf : s ∈ (expected vis a1 rs rs.length 0).filter (fun s => decide (s.iter = some i)) := by
    rw [List.mem_filter]
    exact ⟨hs, by simp [hi]⟩
  rw [expected_filter vis a1 rs i r hr hv, List.mem_map] at hf
  obtain ⟨p, hp, hsp⟩ := hf
  exact ⟨i, r, p, hr, hv, hp, hsp.symm⟩

theorem countP_drop_between (vis : Report → Bool) (rs : List Report) (i j : Nat) (r : Report)
    (hji : j < i) (hr : rs[i]? = some r) :
    (rs.drop (j + 1)).countP vis =
      visibleBetween vis rs j i + (if vis r = true then 1 else 0) +
        (rs.drop (i + 1)).countP vis := by
  have hi := getElem?_some_lt rs i r hr
  have h1 : rs.drop (j + 1) = (rs.take i).drop (j + 1) ++ rs.drop i := by
    conv_lhs => rw [← List.take_append_drop i rs]
    rw [List.drop_append_of_le_length]
    simp only [List.length_take]
    omega
  have h2 : rs.drop i = r :: rs.drop (i + 1) := by
    rw [List.drop_eq_getElem_cons hi]
    congr 1
    rw [List.getElem?_eq_getElem hi] at hr
    exact Option.some.inj hr
  rw [h1, h2, List.countP_append, List.countP_cons]
  simp only [visibleBetween]
  omega

theorem visibleBetween_eq_zero (vis : Report → Bool) (rs : List Report) (i j : Nat)
    (h : ∀ k, j < k → k < i → visibleAt vis rs k = false) :
    visibleBetween vis rs j i = 0 := by
  simp only [visibleBetween]
  rw [List.countP_eq_zero]
  intro a ha
  obtain ⟨k, hk, hka⟩ := List.getElem_of_mem ha
  simp only [List.length_drop, List.length_take] at hk
  have hget : rs[j + 1 + k]? = some a := by
    rw [← hka]
    simp only [List.getElem_drop, List.getElem_take]
    exact List.getElem?_eq_getElem (by omega)
  have := h (j + 1 + k) (by omega) (by omega)
  simp only [visibleAt, hget] at this
  simp [this]

theorem specBackground_unselected_ne (a a' : Bool) (t t' : Int) :
    specBackground false a t ≠ specBackground false a' t' ↔ t % 2 ≠ t' % 2 := by
  have h1 := Int.emod_two_eq_zero_or_one t
  have h2 := Int.emod_two_eq_zero_or_one t'
  simp only [specBackground, Bool.false_eq_true, if_false]
  rcases h1 with h1 | h1 <;> rcases h2 with h2 | h2 <;> simp [h1, h2]

theorem isActive_lineCtx (a1 : SpaceInfo) (rs : List Report) (i : Nat) (t t' : Int)
    (p p' : Int × Int) :
    isActive (lineCtx a1 rs i t p) = isActive (lineCtx a1 rs i t' p') := rfl

/-- The backgrounds of two lines of the trace on unselected reports, the
second report before the first in the list: the counters differ by one more
than the number of visible reports between the two, and the backgrounds are
the tones of the two counters. -/
theorem trace_tones (K : ReportDefs) (vis : Report → Bool) (a1 : SpaceInfo)
    (rs : List Report) (s1 s2 : TextViewContext)
    (h1 : s1 ∈ expected vis a1 rs rs.length 0) (h2 : s2 ∈ expected vis a1 rs rs.length 0)
    (i j : Nat) (r1 r2 : Report) (hi : s1.iter = some i) (hj : s2.iter = some j)
    (hr1 : rs[i]? = some r1) (hr2 : rs[j]? = some r2)
    (hs1 : isSelected K r1 = false) (hs2 : isSelected K r2 = false) (hji : j < i) :
    s2.iter_tmp = s1.iter_tmp + visibleBetween vis rs j i + 1 ∧
    ∃ d1 d2, report_line_draw_data K s1 = some d1 ∧ report_line_draw_data K s2 = some d2 ∧
      d1.bg = some (specBackground false (isActive s1) s1.iter_tmp) ∧
      d2.bg = some (specBackground false (isActive s2) s2.iter_tmp) := by
  obtain ⟨i', r1', p1, hr1', hv1, _, e1⟩ := trace_mem vis a1 rs s1 h1
  obtain ⟨j', r2', p2, hr2', _, _, e2⟩ := trace_mem vis a1 rs s2 h2
  have hii : i' = i := by
    rw [e1] at hi; simpa [lineCtx] using hi
  have hjj : j' = j := by
    rw [e2] at hj; simpa [lineCtx] using hj
  subst hii; subst hjj
  rw [hr1] at hr1'; rw [hr2] at hr2'
  have hrr1 : r1 = r1' := Option.some.inj hr1'
  have hrr2 : r2 = r2' := Option.some.inj hr2'
  subst hrr1; subst hrr2
  have hd1 : deref s1.arg2 s1.iter = some r1 := by rw [e1]; simpa [lineCtx, deref] using hr1
  have hd2 : deref s2.arg2 s2.iter = some r2 := by rw [e2]; simpa [lineCtx, deref] using hr2
  obtain ⟨d1, hdd1, _, _, hbg1, _⟩ := draw_attrs K s1 r1 hd1
  obtain ⟨d2, hdd2, _, _, hbg2, _⟩ := draw_attrs K s2 r2 hd2
  rw [hs1] at hbg1; rw [hs2] at hbg2
  refine ⟨?_, d1, d2, hdd1, hdd2, hbg1, hbg2⟩
  have hc := countP_drop_between vis rs i' j' r1 hji hr1
  rw [hv1] at hc
  rw [e1, e2]
  simp only [lineCtx, hc, if_true]
  push_cast
  ring

/-! ## Zebra striping -/

/-- C13: in a traversal all display lines of one report get the same
background, and two unselected visible reports with no visible report between
them get the two different tones, one plain `TH_BACK` and the other the blend
with `TH_ROW_ALTERNATE`. -/
theorem zebra_striping (K : ReportDefs) (vis : Report → Bool) (tvc : TextViewContext) :
    ∃ trace, traversal vis tvc = some trace ∧
      (∀ s1 ∈ trace, ∀ s2 ∈ trace, s1.iter = s2.iter →
        ∃ d1 d2, report_line_draw_data K s1 = some d1 ∧
          report_line_draw_data K s2 = some d2 ∧ d1.bg = d2.bg) ∧
      (∀ s1 ∈ trace, ∀ s2 ∈ trace, ∀ (i j : Nat) (r1 r2 : Report),
        s1.iter = some i → s2.iter = some j →
        tvc.arg2[i]? = some r1 → tvc.arg2[j]? = some r2 →
        isSelected K r1 = false → isSelected K r2 = false → j < i →
        (∀ k, j < k → k < i → visibleAt vis tvc.arg2 k = false) →
        ∃ d1 d2, report_line_draw_data K s1 = some d1 ∧
          report_line_draw_data K s2 = some d2 ∧ d1.bg ≠ d2.bg ∧
          ((d1.bg = some (Color.theme ThemeColorId.TH_BACK) ∧
              d2.bg = some (Color.blend ThemeColorId.TH_BACK ThemeColorId.TH_ROW_ALTERNATE
                ThemeColorId.TH_ROW_ALTERNATE)) ∨
            (d1.bg = some (Color.blend ThemeColorId.TH_BACK ThemeColorId.TH_ROW_ALTERNATE
                ThemeColorId.TH_ROW_ALTERNATE) ∧
              d2.bg = some (Color.theme ThemeColorId.TH_BACK)))) := by
  refine ⟨_, traversal_eq vis tvc, ?_, ?_⟩
  · intro s1 h1 s2 h2 heq
    obtain ⟨i, r1, p1, hr1, _, _, e1⟩ := trace_mem vis tvc.arg1 tvc.arg2 s1 h1
    obtain ⟨j, r2, p2, hr2, _, _, e2⟩ := trace_mem vis tvc.arg1 tvc.arg2 s2 h2
    have hij : i = j := by
      rw [e1, e2] at heq; simpa [lineCtx] using heq
    subst hij
    rw [hr1] at hr2
    have hrr : r1 = r2 := Option.some.inj hr2
    subst hrr
    have hd1 : deref s1.arg2 s1.iter = some r1 := by rw [e1]; simpa [lineCtx, deref] using hr1
    have hd2 : deref s2.arg2 s2.iter = some r1 := by rw [e2]; simpa [lineCtx, deref] using hr1
    obtain ⟨d1, hdd1, _, _, hbg1, _⟩ := draw_attrs K s1 r1 hd1
    obtain ⟨d2, hdd2, _, _, hbg2, _⟩ := draw_attrs K s2 r1 hd2
    refine ⟨d1, d2, hdd1, hdd2, ?_⟩
    rw [hbg1, hbg2, e1, e2]
    rfl
  · intro s1 h1 s2 h2 i j r1 r2 hi hj hr1 hr2 hs1 hs2 hji hbetween
    obtain ⟨ht, d1, d2, hd1, hd2, hbg1, hbg2⟩ :=
      trace_tones K vis tvc.arg1 tvc.arg2 s1 s2 h1 h2 i j r1 r2 hi hj hr1 hr2 hs1 hs2 hji
    rw [visibleBetween_eq_zero vis tvc.arg2 i j hbetween] at ht
    refine ⟨d1, d2, hd1, hd2, ?_, ?_⟩
    · rw [hbg1, hbg2]
      intro h
      have := (specBackground_unselected_ne (isActive s1) (isActive s2)
        s1.iter_tmp s2.iter_tmp).mpr (by rw [ht]; push_cast; omega)
      exact this (Option.some.inj h)
    · rw [hbg1, hbg2]
      simp only [specBackground, Bool.false_eq_true, if_false]
      rcases Int.emod_two_eq_zero_or_one s1.iter_tmp with h | h
      · right
        have h' : s2.iter_tmp % 2 = 1 := by rw [ht]; push_cast; omega
        simp [h, h']
      · left
        have h' : s2.iter_tmp % 2 = 0 := by rw [ht]; push_cast; omega
        simp [h, h']

/-- C19: `iter_tmp` counts every visible report, selected or not: on the
list of two unselected reports with one selected report between them the two
unselected reports get the same tone; and in any traversal the counters of two
unselected visible reports differ by one more than the number of visible
reports between them, so their tones differ exactly when that number is
even. -/
theorem selected_consumes_stripe (K : ReportDefs) (vis : Report → Bool)
    (tvc : TextViewContext) :
    (traversal showAll (tvc_init ⟨0⟩ stripeReports)).map
        (List.map (fun s => (s.iter, s.iter_tmp,
          (report_line_draw_data sampleDefs s).map (fun d => d.bg)))) =
      some [
        (some 2, 0, some (some (Color.blend ThemeColorId.TH_BACK ThemeColorId.TH_ROW_ALTERNATE
          ThemeColorId.TH_ROW_ALTERNATE))),
        (some 1, 1, some (some (Color.theme ThemeColorId.TH_INFO_SELECTED))),
        (some 0, 2, some (some (Color.blend ThemeColorId.TH_BACK ThemeColorId.TH_ROW_ALTERNATE
          ThemeColorId.TH_ROW_ALTERNATE)))] ∧
    ∃ trace, traversal vis tvc = some trace ∧
      ∀ s1 ∈ trace, ∀ s2 ∈ trace, ∀ (i j : Nat) (r1 r2 : Report),
        s1.iter = some i → s2.iter = some j →
        tvc.arg2[i]? = some r1 → tvc.arg2[j]? = some r2 →
        isSelected K r1 = false → isSelected K r2 = false → j < i →
        s2.iter_tmp = s1.iter_tmp + visibleBetween vis tvc.arg2 j i + 1 ∧
        ∃ d1 d2, report_line_draw_data K s1 = some d1 ∧
          report_line_draw_data K s2 = some d2 ∧
          (d1.bg ≠ d2.bg ↔ Even (visibleBetween vis tvc.arg2 j i)) := by
  refine ⟨by decide, _, traversal_eq vis tvc, ?_⟩
  intro s1 h1 s2 h2 i j r1 r2 hi hj hr1 hr2 hs1 hs2 hji
  obtain ⟨ht, d1, d2, hd1, hd2, hbg1, hbg2⟩ :=
    trace_tones K vis tvc.arg1 tvc.arg2 s1 s2 h1 h2 i j r1 r2 hi hj hr1 hr2 hs1 hs2 hji
  refine ⟨ht, d1, d2, hd1, hd2, ?_⟩
  rw [hbg1, hbg2]
  have hne := specBackground_unselected_ne (isActive s1) (isActive s2) s1.iter_tmp s2.iter_tmp
  constructor
  · intro h
    have h' : s1.iter_tmp % 2 ≠ s2.iter_tmp % 2 := hne.mp (fun e => h (by rw [e]))
    rw [ht] at h'
    rw [Nat.even_iff]
    omega
  · intro h hsome
    rw [Nat.even_iff] at h
    have h' : s1.iter_tmp % 2 ≠ s2.iter_tmp % 2 := by rw [ht]; omega
    exact hne.mpr h' (Option.some.inj hsome)

/-! ## The newline scan, termination and the cursor -/

/-- C16: for an end offset `E = iter_char_end` with `0 <= E <= len`,
`report_textview_init__internal` changes `iter_char_begin` only, and sets it
to `i + 1` for the largest index `i` below `E` that holds a newline, or to 0
when no index below `E` holds one; so no newline stands in the span from
`iter_char_begin` to `E`, and `iter_char_begin` is 0 or follows a newline. -/
theorem newline_scan (tvc : TextViewContext) (r : Report)
    (hr : deref tvc.arg2 tvc.iter = some r)
    (h0 : 0 ≤ tvc.iter_char_end) (hE : tvc.iter_char_end ≤ r.len) :
    ∃ b : Nat, report_textview_init__internal tvc = some { tvc with iter_char_begin := b } ∧
      ((∃ i : Nat, (i : Int) < tvc.iter_char_end ∧ str_at r.message i = '\n' ∧
          (∀ j : Nat, i < j → (j : Int) < tvc.iter_char_end → str_at r.message j ≠ '\n') ∧
          b = i + 1) ∨
        ((∀ j : Nat, (j : Int) < tvc.iter_char_end → str_at r.message j ≠ '\n') ∧ b = 0)) ∧
      (∀ j : Nat, b ≤ j → (j : Int) < tvc.iter_char_end → str_at r.message j ≠ '\n') ∧
      (b = 0 ∨ str_at r.message (b - 1) = '\n') ∧
      (b : Int) ≤ tvc.iter_char_end ∧ (b : Int) ≤ r.len := by
  have hle := scanLoop_le (str_at r.message) tvc.iter_char_end.toNat
  have hno := scanLoop_no_newline (str_at r.message) tvc.iter_char_end.toNat
  refine ⟨scanLoop (str_at r.message) tvc.iter_char_end.toNat, ?_, ?_, ?_, ?_, ?_, ?_⟩
  · simp [report_textview_init__internal, hr]
  · by_cases hb : scanLoop (str_at r.message) tvc.iter_char_end.toNat = 0
    · right
      refine ⟨fun j hj => hno j (by omega) (by omega), hb⟩
    · left
      refine ⟨scanLoop (str_at r.message) tvc.iter_char_end.toNat - 1, by omega,
        scanLoop_prev_newline _ _ hb, fun j h1 h2 => hno j (by omega) (by omega), by omega⟩
  · intro j h1 h2
    exact hno j h1 (by omega)
  · by_cases hb : scanLoop (str_at r.message) tvc.iter_char_end.toNat = 0
    · exact Or.inl hb
    · exact Or.inr (scanLoop_prev_newline _ _ hb)
  · omega
  · omega

/-- The scan of the whole message `a\nb` of the sample list: the newline at
index 1 gives `iter_char_begin = 2`. -/
theorem newline_scan_witness :
    deref (lineCtx ⟨0⟩ sampleReports 0 1 (0, 3)).arg2 (lineCtx ⟨0⟩ sampleReports 0 1 (0, 3)).iter =
      some { type := 2, flag := 0, len := 3, message := ['a', '\n', 'b'] } ∧
    (0 : Int) ≤ (lineCtx ⟨0⟩ sampleReports 0 1 (0, 3)).iter_char_end ∧
    (lineCtx ⟨0⟩ sampleReports 0 1 (0, 3)).iter_char_end ≤ 3 ∧
    report_textview_init__internal (lineCtx ⟨0⟩ sampleReports 0 1 (0, 3)) =
      some (lineCtx ⟨0⟩ sampleReports 0 1 (2, 3)) ∧
    ∃ b : Nat, report_textview_init__internal (lineCtx ⟨0⟩ sampleReports 0 1 (0, 3)) =
        some { lineCtx ⟨0⟩ sampleReports 0 1 (0, 3) with iter_char_begin := b } ∧
      (b = 0 ∨ str_at ['a', '\n', 'b'] (b - 1) = '\n') := by
  obtain ⟨b, h1, _, _, h4, _⟩ := newline_scan (lineCtx ⟨0⟩ sampleReports 0 1 (0, 3))
    { type := 2, flag := 0, len := 3, message := ['a', '\n', 'b'] }
    (by decide) (by decide) (by decide)
  exact ⟨by decide, by decide, by decide, by decide, b, h1, h4⟩

theorem stepLoop_chain (vis : Report → Bool) :
    ∀ (fuel : Nat) (s : TextViewContext) (tr : List TextViewContext),
      stepLoop vis fuel s = some tr →
      tr.head? = some s ∧
      (∀ k a b, tr[k]? = some a → tr[k + 1]? = some b →
        report_textview_step vis a = some (b, true)) ∧
      (∀ l, tr.getLast? = some l → ∃ s', report_textview_step vis l = some (s', false)) := by
  intro fuel
  induction fuel with
  | zero => intro s tr h; simp [stepLoop] at h
  | succ fuel ih =>
    intro s tr h
    simp only [stepLoop] at h
    cases hstep : report_textview_step vis s with
    | none => simp [hstep] at h
    | some x =>
      obtain ⟨s', b⟩ := x
      cases b with
      | false =>
        simp only [hstep, Option.some.injEq] at h
        subst h
        refine ⟨rfl, ?_, ?_⟩
        · intro k a b _ hb
          simp at hb
        · intro l hl
          simp only [List.getLast?_singleton, Option.some.injEq] at hl
          subst hl
          exact ⟨s', hstep⟩
      | true =>
        simp only [hstep] at h
        cases hrest : stepLoop vis fuel s' with
        | none => simp [hrest] at h
        | some rest =>
          simp only [hrest, Option.some.injEq] at h
          subst h
          obtain ⟨hhead, hchain, hlast⟩ := ih s' rest hrest
          refine ⟨rfl, ?_, ?_⟩
          · intro k a b ha hb
            cases k with
            | zero =>
              simp only [List.getElem?_cons_zero, Option.some.injEq] at ha
              simp only [zero_add, List.getElem?_cons_succ] at hb
              subst ha
              cases rest with
              | nil => simp at hb
              | cons x xs =>
                simp only [List.head?_cons, Option.some.injEq] at hhead
                simp only [List.getElem?_cons_zero, Option.some.injEq] at hb
                subst hhead; subst hb
                exact hstep
            | succ k =>
              simp only [List.getElem?_cons_succ] at ha hb
              exact hchain k a b ha hb
          · intro l hl
            cases rest with
            | nil => simp at hhead
            | cons x xs =>
              rw [List.getLast?_cons_cons] at hl
              exact hlast l hl

theorem expected_length (vis : Report → Bool) (a1 : SpaceInfo) (rs : List Report)
    (hlen : ∀ r ∈ rs, r.len = r.message.length) (n : Nat) (t : Int) :
    (expected vis a1 rs n t).length =
      (((rs.take n).filter vis).map (fun r => r.message.count '\n' + 1)).sum := by
  induction n generalizing t with
  | zero => simp [expected]
  | succ n ih =>
    simp only [expected]
    cases hr : rs[n]? with
    | none =>
      have hn : rs.length ≤ n := by
        by_contra hc
        rw [List.getElem?_eq_getElem (by omega)] at hr
        exact Option.noConfusion hr
      have h1 := ih t
      rw [List.take_of_length_le hn] at h1
      rw [List.take_of_length_le (by omega)]
      simpa using h1
    | some r =>
      have hrl := hlen r (List.getElem?_mem hr)
      have hcount : (reportSpans r).length = r.message.count '\n' + 1 := by
        rw [reportSpans_of_len r hrl, List.length_map,
          spans_count r.message r.message.length le_rfl, List.take_length]
      rw [List.take_succ, hr]
      simp only [Option.toList, List.filter_append, List.map_append, List.sum_append]
      by_cases hv : vis r = true
      · simp only [hv, if_true, List.length_append, List.length_map, ih (t + 1), hcount,
          List.filter_cons, List.filter_nil, List.map_cons, List.map_nil, List.sum_cons,
          List.sum_nil]
        omega
      · simp only [hv, Bool.false_eq_true, if_false, ih t, List.filter_cons, List.filter_nil,
          List.map_nil, List.sum_nil]
        omega

/-- C17: when every report has `len` equal to the length of its message, the
traversal ends: `begin` and the steps that follow return true up to a step
that returns false (or `begin` itself returns false and no line is exposed),
and the number of lines exposed is the sum over the visible reports of the
number of newlines of the message plus 1. -/
theorem termination_total_lines (vis : Report → Bool) (tvc : TextViewContext)
    (hlen : ∀ r ∈ tvc.arg2, r.len = r.message.length) :
    ∃ tr, traversal vis tvc = some tr ∧
      tr.length =
        ((tvc.arg2.filter vis).map (fun r => r.message.count '\n' + 1)).sum ∧
      (tr = [] → ∃ s, report_textview_begin vis tvc = some (s, false)) ∧
      (∀ s, tr.head? = some s → report_textview_begin vis tvc = some (s, true)) ∧
      (∀ k a b, tr[k]? = some a → tr[k + 1]? = some b →
        report_textview_step vis a = some (b, true)) ∧
      (∀ l, tr.getLast? = some l → ∃ s', report_textview_step vis l = some (s', false)) := by
  have ht := traversal_eq vis tvc
  have hl := expected_length vis tvc.arg1 tvc.arg2 hlen tvc.arg2.length 0
  rw [List.take_length] at hl
  refine ⟨_, ht, hl, ?_⟩
  generalize expected vis tvc.arg1 tvc.arg2 tvc.arg2.length 0 = tr at ht
  simp only [traversal] at ht
  cases hb : report_textview_begin vis tvc with
  | none => simp [hb] at ht
  | some x =>
    obtain ⟨s0, b⟩ := x
    cases b with
    | false =>
      simp only [hb, Option.some.injEq] at ht
      subst ht
      refine ⟨fun _ => ⟨s0, rfl⟩, ?_, ?_, ?_⟩
      · intro s hs; simp at hs
      · intro k a b ha; simp at ha
      · intro l hl; simp at hl
    | true =>
      simp only [hb] at ht
      obtain ⟨hhead, hchain, hlast⟩ := stepLoop_chain vis _ s0 tr ht
      refine ⟨?_, ?_, hchain, hlast⟩
      · intro hnil; rw [hnil] at hhead; simp at hhead
      · intro s hs
        rw [hhead] at hs
        rw [Option.some.inj hs]

/-- The total on the sample list: three lines for one newline in two visible
reports. -/
theorem termination_total_lines_witness :
    (∀ r ∈ (tvc_init ⟨0⟩ sampleReports).arg2, r.len = r.message.length) ∧
    ∃ tr, traversal showAll (tvc_init ⟨0⟩ sampleReports) = some tr ∧
      tr.length = 3 := by
  obtain ⟨tr, h1, h2, _⟩ := termination_total_lines showAll (tvc_init ⟨0⟩ sampleReports)
    (by decide)
  exact ⟨by decide, tr, h1, by rw [h2]; decide⟩

theorem step_null (vis : Report → Bool) (s : TextViewContext) (h : s.iter = none) :
    report_textview_step vis s = none := by
  by_cases hb : s.iter_char_begin ≤ 0
  · simp [report_textview_step, hb, h, link_prev]
  · simp [report_textview_step, hb, h, report_textview_init__internal, deref]

theorem line_get_null (s : TextViewContext) (h : s.iter = none) :
    report_textview_line_get s = none := by
  simp [report_textview_line_get, h, deref]

theorem draw_null (K : ReportDefs) (s : TextViewContext) (h : s.iter = none) :
    report_line_draw_data K s = none := by
  simp [report_line_draw_data, h, deref]

theorem step_false_null (vis : Report → Bool) (s s' : TextViewContext) (i : Nat) (r : Report)
    (hi : s.iter = some i) (hr : s.arg2[i]? = some r)
    (h : report_textview_step vis s = some (s', false)) : s'.iter = none := by
  have hlt := getElem?_some_lt _ i r hr
  by_cases hpos : 0 < s.iter_char_begin
  · have hd : deref s.arg2 s.iter = some r := by rw [hi]; exact hr
    rw [step_inside vis s r hpos hd] at h
    simp at h
  · rw [step_leave vis s i (by omega) hi hlt] at h
    cases hp : prevVisible vis s.arg2 i with
    | none =>
      simp only [hp, Option.some.injEq, Prod.mk.injEq, and_true] at h
      rw [← h]
    | some j =>
      obtain ⟨_, r', hr', _⟩ := prevVisible_some vis s.arg2 i j hp
      simp [hp, hr'] at h

theorem step_total (vis : Report → Bool) (s : TextViewContext) (i : Nat) (r : Report)
    (hi : s.iter = some i) (hr : s.arg2[i]? = some r) :
    ∃ s' b, report_textview_step vis s = some (s', b) := by
  have hlt := getElem?_some_lt _ i r hr
  by_cases hpos : 0 < s.iter_char_begin
  · have hd : deref s.arg2 s.iter = some r := by rw [hi]; exact hr
    exact ⟨_, _, step_inside vis s r hpos hd⟩
  · have h := step_leave vis s i (by omega) hi hlt
    cases hp : prevVisible vis s.arg2 i with
    | none =>
      rw [hp] at h
      exact ⟨_, _, h⟩
    | some j =>
      obtain ⟨_, r', hr', _⟩ := prevVisible_some vis s.arg2 i j hp
      rw [hp] at h
      simp only [hr'] at h
      exact ⟨_, _, h⟩

/-- C18: in every state of a traversal the cursor is a visible report of the
list, so `report_textview_step`, `report_textview_line_get` and
`report_line_draw_data` do not meet a null cursor; a step that returns false
leaves the cursor null, as does a `begin` that returns false, and on a null
cursor each of the three faults. -/
theorem cursor_valid (K : ReportDefs) (vis : Report → Bool) (tvc0 s : TextViewContext)
    (h : Reached vis tvc0 s) :
    (∃ i r, s.iter = some i ∧ s.arg2 = tvc0.arg2 ∧ tvc0.arg2[i]? = some r ∧ vis r = true) ∧
    (∃ s' b, report_textview_step vis s = some (s', b)) ∧
    (∃ l, report_textview_line_get s = some l) ∧
    (∃ d, report_line_draw_data K s = some d) ∧
    (∀ s', report_textview_step vis s = some (s', false) →
      s'.iter = none ∧ report_textview_step vis s' = none ∧
      report_textview_line_get s' = none ∧ report_line_draw_data K s' = none) ∧
    (∀ s0, report_textview_begin vis tvc0 = some (s0, false) →
      s0.iter = none ∧ report_textview_step vis s0 = none) := by
  obtain ⟨_, h2, _, _, i, r, hi, hr, hv, _⟩ := reached_inv vis tvc0 s h
  have hr' : s.arg2[i]? = some r := by rw [h2]; exact hr
  have hd : deref s.arg2 s.iter = some r := by rw [hi]; exact hr'
  obtain ⟨d, hdraw, _⟩ := draw_attrs K s r hd
  refine ⟨⟨i, r, hi, h2, hr, hv⟩, step_total vis s i r hi hr', ?_, ⟨d, hdraw⟩, ?_, ?_⟩
  · simp [report_textview_line_get, hd]
  · intro s' hs'
    have hn := step_false_null vis s s' i r hi hr' hs'
    exact ⟨hn, step_null vis s' hn, line_get_null s' hn, draw_null K s' hn⟩
  · intro s0 hs0
    rw [begin_eq] at hs0
    cases hp : prevVisible vis tvc0.arg2 tvc0.arg2.length with
    | none =>
      simp only [hp, Option.some.injEq, Prod.mk.injEq, and_true] at hs0
      have hn : s0.iter = none := by rw [← hs0]
      exact ⟨hn, step_null vis s0 hn⟩
    | some j =>
      obtain ⟨_, r', hr', _⟩ := prevVisible_some vis tvc0.arg2 _ j hp
      simp [hp, hr'] at hs0

/-- The cursor in the state after the first step on the sample list. -/
theorem cursor_valid_witness :
    Reached showAll (tvc_init ⟨0⟩ sampleReports) (lineCtx ⟨0⟩ sampleReports 0 1 (2, 3)) ∧
    (∃ i r, (lineCtx ⟨0⟩ sampleReports 0 1 (2, 3)).iter = some i ∧
      (lineCtx ⟨0⟩ sampleReports 0 1 (2, 3)).arg2 = (tvc_init ⟨0⟩ sampleReports).arg2 ∧
      (tvc_init ⟨0⟩ sampleReports).arg2[i]? = some r ∧ showAll r = true) ∧
    (∃ d, report_line_draw_data sampleDefs (lineCtx ⟨0⟩ sampleReports 0 1 (2, 3)) = some d) := by
  have hR : Reached showAll (tvc_init ⟨0⟩ sampleReports) (lineCtx ⟨0⟩ sampleReports 0 1 (2, 3)) :=
    Reached.next (lineCtx ⟨0⟩ sampleReports 1 0 (0, 1)) _
      (Reached.start _ (by decide)) (by decide)
  obtain ⟨h1, _, _, h4, _⟩ := cursor_valid sampleDefs showAll (tvc_init ⟨0⟩ sampleReports)
    (lineCtx ⟨0⟩ sampleReports 0 1 (2, 3)) hR
  exact ⟨hR, h1, h4⟩

/-- The striping on `stripeReports` with the selected report hidden: the two
unselected reports follow each other in the traversal and get different
tones. -/
theorem zebra_striping_witness :
    traversal hideFlagged (tvc_init ⟨0⟩ stripeReports) =
      some [lineCtx ⟨0⟩ stripeReports 2 0 (0, 1), lineCtx ⟨0⟩ stripeReports 0 1 (0, 1)] ∧
    ∃ d1 d2,
      report_line_draw_data sampleDefs (lineCtx ⟨0⟩ stripeReports 2 0 (0, 1)) = some d1 ∧
      report_line_draw_data sampleDefs (lineCtx ⟨0⟩ stripeReports 0 1 (0, 1)) = some d2 ∧
      d1.bg ≠ d2.bg := by
  have ht : traversal hideFlagged (tvc_init ⟨0⟩ stripeReports) =
      some [lineCtx ⟨0⟩ stripeReports 2 0 (0, 1), lineCtx ⟨0⟩ stripeReports 0 1 (0, 1)] := by
    decide
  obtain ⟨tr, htr, _, h2⟩ := zebra_striping sampleDefs hideFlagged (tvc_init ⟨0⟩ stripeReports)
  rw [ht] at htr
  have htr' := Option.some.inj htr
  subst htr'
  obtain ⟨d1, d2, hd1, hd2, hne, _⟩ := h2 (lineCtx ⟨0⟩ stripeReports 2 0 (0, 1)) (by simp)
    (lineCtx ⟨0⟩ stripeReports 0 1 (0, 1)) (by simp) 2 0
    { type := 2, flag := 0, len := 1, message := ['z'] }
    { type := 2, flag := 0, len := 1, message := ['x'] }
    rfl rfl (by decide) (by decide) (by decide) (by decide) (by omega)
    (by
      intro k h1 h2
      have hk : k = 1 := by omega
      subst hk
      decide)
  exact ⟨ht, d1, d2, hd1, hd2, hne⟩

/-- The stripes on `stripeReports` with every report shown: one visible
report, the selected one, lies between the two unselected reports, and they
get the same tone. -/
theorem selected_consumes_stripe_witness :
    visibleBetween showAll stripeReports 0 2 = 1 ∧
    ∃ d1 d2,
      report_line_draw_data sampleDefs (lineCtx ⟨0⟩ stripeReports 2 0 (0, 1)) = some d1 ∧
      report_line_draw_data sampleDefs (lineCtx ⟨0⟩ stripeReports 0 2 (0, 1)) = some d2 ∧
      d1.bg = d2.bg := by
  have ht : traversal showAll (tvc_init ⟨0⟩ stripeReports) =
      some [lineCtx ⟨0⟩ stripeReports 2 0 (0, 1), lineCtx ⟨0⟩ stripeReports 1 1 (0, 1),
        lineCtx ⟨0⟩ stripeReports 0 2 (0, 1)] := by
    decide
  have hvb : visibleBetween showAll stripeReports 0 2 = 1 := by decide
  obtain ⟨_, tr, htr, h2⟩ :=
    selected_consumes_stripe sampleDefs showAll (tvc_init ⟨0⟩ stripeReports)
  rw [ht] at htr
  have htr' := Option.some.inj htr
  subst htr'
  obtain ⟨_, d1, d2, hd1, hd2, hiff⟩ := h2 (lineCtx ⟨0⟩ stripeReports 2 0 (0, 1)) (by simp)
    (lineCtx ⟨0⟩ stripeReports 0 2 (0, 1)) (by simp) 2 0
    { type := 2, flag := 0, len := 1, message := ['z'] }
    { type := 2, flag := 0, len := 1, message := ['x'] }
    rfl rfl (by decide) (by decide) (by decide) (by decide) (by omega)
  refine ⟨hvb, d1, d2, hd1, hd2, ?_⟩
  by_contra hne
  have hev := hiff.mp hne
  have hvb' : visibleBetween showAll (tvc_init ⟨0⟩ stripeReports).arg2 0 2 = 1 := hvb
  rw [hvb'] at hev
  exact absurd hev (by decide)

end InfoDraw
